import Mathlib

/-
  Verification of the body-creation / frame-consistency core of
  Tudat/SimulationSetup/EnvironmentSetup/createBodies.h.

  The file shallowly embeds:
  * the per-body settings aggregate (struct BodySettings),
  * the dependency-order resolver declared as determineBodyCreationOrder
    (its implementation is not part of the fragment; it is modelled from
    the specification's description: stable Kahn topological sort on the
    frame-origin dependency graph, failing with CycleDetected),
  * the frame-consistency enforcer setGlobalFrameBodyEphemerides,
    translated from the source, with std::map iteration represented as a
    fold over the association list in key order and the in-place Body
    mutation represented as explicit threading of the map,
  * the base-state translation adapter and the state query
    Body::getStateInBaseFrameFromEphemeris (modelled from the spec, the
    class Body itself being outside the fragment); the adapter stores the
    name of the origin body and is resolved against the live map at query
    time, matching the shared-pointer binding in the source.

  C++ template parameters StateScalarType / TimeType are embedded as value
  tags of type NumRep carried by the constructed adapter, so that the
  numeric-genericity claims can be stated; the numeric state itself is
  modelled uniformly as integer 6-vectors.
-/

/-! ## Association-list maps (model of std::map iterated in key order) -/

def mapLookup {α : Type} : List (String × α) → String → Option α
  | [], _ => none
  | (k, v) :: rest, nm => if k = nm then some v else mapLookup rest nm

def mapKeys {α : Type} (m : List (String × α)) : List String :=
  m.map Prod.fst

def mapUpdate {α : Type} : List (String × α) → String → α → List (String × α)
  | [], _, _ => []
  | (k, v) :: rest, nm, v' =>
    if k = nm then (k, v') :: rest else (k, v) :: mapUpdate rest nm v'

@[simp]
theorem mapKeys_nil {α : Type} : mapKeys ([] : List (String × α)) = [] := rfl

@[simp]
theorem mapKeys_cons {α : Type} (k : String) (v : α) (rest : List (String × α)) :
    mapKeys ((k, v) :: rest) = k :: mapKeys rest := rfl

theorem mapLookup_eq_none {α : Type} (m : List (String × α)) (k : String) :
    mapLookup m k = none ↔ k ∉ mapKeys m := by
  induction m with
  | nil => simp [mapLookup]
  | cons p rest ih =>
    obtain ⟨k', v⟩ := p
    by_cases h : k' = k
    · subst h
      simp [mapLookup]
    · simp only [mapLookup, if_neg h, mapKeys_cons, List.mem_cons, not_or, ih]
      constructor
      · intro hn
        exact ⟨fun he => h he.symm, hn⟩
      · intro hn
        exact hn.2

theorem mapLookup_isSome_of_mem_keys {α : Type} {m : List (String × α)} {k : String}
    (h : k ∈ mapKeys m) : ∃ v, mapLookup m k = some v := by
  cases hl : mapLookup m k with
  | none => exact absurd ((mapLookup_eq_none m k).mp hl) (by simp [h])
  | some v => exact ⟨v, rfl⟩

theorem mapLookup_mem {α : Type} {m : List (String × α)} {k : String} {v : α}
    (h : mapLookup m k = some v) : (k, v) ∈ m := by
  induction m with
  | nil => simp [mapLookup] at h
  | cons p rest ih =>
    obtain ⟨k', v'⟩ := p
    by_cases hk : k' = k
    · subst hk
      simp [mapLookup] at h
      simp [h]
    · simp [mapLookup, hk] at h
      exact List.mem_cons_of_mem _ (ih h)

theorem mem_keys_of_mem {α : Type} {m : List (String × α)} {k : String} {v : α}
    (h : (k, v) ∈ m) : k ∈ mapKeys m := by
  simp only [mapKeys, List.mem_map]
  exact ⟨(k, v), h, rfl⟩

theorem mapLookup_of_mem {α : Type} {m : List (String × α)} {k : String} {v : α}
    (hnd : (mapKeys m).Nodup) (h : (k, v) ∈ m) : mapLookup m k = some v := by
  induction m with
  | nil => simp at h
  | cons p rest ih =>
    obtain ⟨k', v'⟩ := p
    simp only [mapKeys, List.map_cons, List.nodup_cons] at hnd
    rcases List.mem_cons.mp h with h1 | h1
    · obtain ⟨hk, hv⟩ := Prod.mk.injEq .. ▸ congrArg id h1
      simp only [Prod.mk.injEq] at h1
      simp [mapLookup, h1.1, h1.2]
    · have hk' : k' ≠ k := by
        intro he
        subst he
        exact hnd.1 (mem_keys_of_mem h1)
      simp only [mapLookup, hk', if_false]
      exact ih hnd.2 h1

theorem mapKeys_update {α : Type} (m : List (String × α)) (k : String) (v : α) :
    mapKeys (mapUpdate m k v) = mapKeys m := by
  induction m with
  | nil => rfl
  | cons p rest ih =>
    obtain ⟨k', v'⟩ := p
    by_cases h : k' = k <;> simp [mapUpdate, h, mapKeys] at ih ⊢
    exact ih

theorem mapLookup_update_self {α : Type} (m : List (String × α)) (k : String) (v : α) :
    mapLookup (mapUpdate m k v) k = (mapLookup m k).map fun _ => v := by
  induction m with
  | nil => rfl
  | cons p rest ih =>
    obtain ⟨k', v'⟩ := p
    by_cases h : k' = k <;> simp [mapUpdate, mapLookup, h]
    exact ih

theorem mapLookup_update_ne {α : Type} (m : List (String × α)) {k k' : String} (v : α)
    (h : k' ≠ k) : mapLookup (mapUpdate m k v) k' = mapLookup m k' := by
  induction m with
  | nil => rfl
  | cons p rest ih =>
    obtain ⟨k0, v0⟩ := p
    by_cases h0 : k0 = k
    · have hk0 : ¬(k0 = k') := fun he => h (he.symm.trans h0)
      simp [mapUpdate, if_pos h0, mapLookup, hk0]
    · simp only [mapUpdate, if_neg h0, mapLookup]
      by_cases h1 : k0 = k'
      · simp [h1]
      · simp [h1, ih]

/-! ## Settings model (struct BodySettings, createBodies.h lines 39-66)

The sub-settings classes live outside the fragment; each is modelled as an
opaque marker structure.  The two settings kinds relevant to the resolver
(ephemeris and rotation model) additionally expose, per the spec, a declared
frame-origin name (and, for the ephemeris, a frame-orientation name). -/

structure AtmosphereSettings where
  mk ::
deriving DecidableEq

structure GravityFieldSettings where
  mk ::
deriving DecidableEq

structure BodyShapeSettings where
  mk ::
deriving DecidableEq

structure RadiationPressureInterfaceSettings where
  mk ::
deriving DecidableEq

structure AerodynamicCoefficientSettings where
  mk ::
deriving DecidableEq

structure GravityFieldVariationSettings where
  mk ::
deriving DecidableEq

structure EphemerisSettings where
  frameOrigin : String
  frameOrientation : String
deriving DecidableEq

structure RotationModelSettings where
  frameOrigin : String
deriving DecidableEq

structure BodySettings where
  atmosphereSettings : Option AtmosphereSettings := none
  ephemerisSettings : Option EphemerisSettings := none
  gravityFieldSettings : Option GravityFieldSettings := none
  rotationModelSettings : Option RotationModelSettings := none
  shapeModelSettings : Option BodyShapeSettings := none
  radiationPressureSettings : List (String × RadiationPressureInterfaceSettings) := []
  aerodynamicCoefficientSettings : Option AerodynamicCoefficientSettings := none
  gravityFieldVariationSettings : List GravityFieldVariationSettings := []
deriving DecidableEq

/-- Frame-origin names declared by a body's ephemeris or rotation settings. -/
def originsOf (s : BodySettings) : List String :=
  (s.ephemerisSettings.map EphemerisSettings.frameOrigin).toList ++
    (s.rotationModelSettings.map RotationModelSettings.frameOrigin).toList

/-! ## Dependency Order Resolver

Modelled from the spec: `determineBodyCreationOrder` is only declared in the
fragment (createBodies.h lines 68-69); its algorithm follows spec section 4.1:
a stable Kahn topological sort over the edge set "referenced in-set frame
origin comes before the body referencing it", which fails with `CycleDetected`
identifying a body on a dependency cycle.  The recursion is made structural
with a fuel argument always instantiated with the length of the input. -/

inductive DependencyError where
  | cycleDetected (body : String)
deriving DecidableEq

/-- A body is free when every frame origin it declares that is a key of the
input mapping (`allKeys`) is no longer among the unprocessed bodies
(`remKeys`). -/
def isFreeOfRemaining (allKeys remKeys : List String) (s : BodySettings) : Bool :=
  (originsOf s).all fun o => !(allKeys.contains o && remKeys.contains o)

/-- First free entry of the remaining list, with the entries around it. -/
def splitAtFree (allKeys remKeys : List String) :
    List (String × BodySettings) →
      Option (List (String × BodySettings) × (String × BodySettings) ×
        List (String × BodySettings))
  | [] => none
  | e :: rest =>
    if isFreeOfRemaining allKeys remKeys e.2 then some ([], e, rest)
    else (splitAtFree allKeys remKeys rest).map fun p => (e :: p.1, p.2.1, p.2.2)

/-- One in-set dependency of `b` still among the remaining bodies (used to
walk into a cycle once the sort is stuck); returns `b` itself if none exists. -/
def blockingOriginOf (allKeys remKeys : List String)
    (rem : List (String × BodySettings)) (b : String) : String :=
  (((mapLookup rem b).bind fun s =>
      (originsOf s).find? fun o => allKeys.contains o && remKeys.contains o).getD b)

/-- Follow blocking dependencies until a body repeats; that body lies on a
dependency cycle. -/
def walkToCycle (step : String → String) : Nat → String → List String → String
  | 0, cur, _ => cur
  | fuel + 1, cur, visited =>
    if cur ∈ visited then cur
    else walkToCycle step fuel (step cur) (cur :: visited)

def findCycleMember (allKeys remKeys : List String)
    (rem : List (String × BodySettings)) (start : String) : String :=
  walkToCycle (blockingOriginOf allKeys remKeys rem) (remKeys.length + 1) start []

def kahnGo (allKeys : List String) :
    Nat → List (String × BodySettings) →
      Except DependencyError (List (String × BodySettings))
  | _, [] => .ok []
  | 0, e :: rest =>
    .error (.cycleDetected
      (findCycleMember allKeys (mapKeys (e :: rest)) (e :: rest) e.1))
  | fuel + 1, e :: rest =>
    match splitAtFree allKeys (mapKeys (e :: rest)) (e :: rest) with
    | some (l1, x, l2) =>
      match kahnGo allKeys fuel (l1 ++ l2) with
      | .ok out => .ok (x :: out)
      | .error err => .error err
    | none =>
      .error (.cycleDetected
        (findCycleMember allKeys (mapKeys (e :: rest)) (e :: rest) e.1))

/-- Modelled from the spec: resolver declared as `determineBodyCreationOrder`
in createBodies.h (lines 68-69); body not part of the fragment. -/
def determineBodyCreationOrder (bodySettings : List (String × BodySettings)) :
    Except DependencyError (List (String × BodySettings)) :=
  kahnGo (mapKeys bodySettings) bodySettings.length bodySettings

/-- Dependency edge: `b` depends on `o` when `b`'s settings declare frame
origin `o` and `o` is a key of the mapping. -/
def depEdge (m : List (String × BodySettings)) (b o : String) : Prop :=
  (∃ s, mapLookup m b = some s ∧ o ∈ originsOf s) ∧ o ∈ mapKeys m

/-! ## Resolver lemmas -/

theorem string_contains_iff {l : List String} {a : String} :
    l.contains a = true ↔ a ∈ l := by
  simp [List.contains]

theorem isFree_eq_false {ak rk : List String} {s : BodySettings}
    (h : isFreeOfRemaining ak rk s = false) :
    ∃ o, o ∈ originsOf s ∧ o ∈ ak ∧ o ∈ rk := by
  have h0 : ((originsOf s).all fun o => !(ak.contains o && rk.contains o)) = false := h
  rcases List.all_eq_false.mp h0 with ⟨o, ho, hno⟩
  have hb : (ak.contains o && rk.contains o) = true := by
    cases hc : (ak.contains o && rk.contains o) with
    | true => rfl
    | false => exact absurd (by rw [hc]; rfl) hno
  have hb' : ak.contains o = true ∧ rk.contains o = true := by simpa using hb
  exact ⟨o, ho, string_contains_iff.mp hb'.1, string_contains_iff.mp hb'.2⟩

theorem isFree_eq_true {ak rk : List String} {s : BodySettings}
    (h : isFreeOfRemaining ak rk s = true) :
    ∀ o ∈ originsOf s, o ∈ ak → o ∉ rk := by
  intro o ho hak hrk
  have h0 : ((originsOf s).all fun o => !(ak.contains o && rk.contains o)) = true := h
  have h1 := List.all_eq_true.mp h0 o ho
  rw [string_contains_iff.mpr hak, string_contains_iff.mpr hrk] at h1
  simp at h1

theorem splitAtFree_append {ak rk : List String} :
    ∀ {l l1 l2 : List (String × BodySettings)} {x : String × BodySettings},
      splitAtFree ak rk l = some (l1, x, l2) → l = l1 ++ x :: l2 := by
  intro l
  induction l with
  | nil => intro l1 l2 x h; simp [splitAtFree] at h
  | cons e rest ih =>
    intro l1 l2 x h
    cases hf : isFreeOfRemaining ak rk e.2 with
    | true =>
      simp [splitAtFree, hf] at h
      obtain ⟨h1, h2, h3⟩ := h
      simp [← h1, ← h2, ← h3]
    | false =>
      simp only [splitAtFree, hf, Bool.false_eq_true, if_false] at h
      cases hsub : splitAtFree ak rk rest with
      | none => rw [hsub] at h; simp at h
      | some p =>
        obtain ⟨p1, px, p2⟩ := p
        rw [hsub] at h
        simp at h
        obtain ⟨h1, h2, h3⟩ := h
        have heq := ih hsub
        rw [← h1, ← h2, ← h3]
        simp [heq]

theorem splitAtFree_free {ak rk : List String} :
    ∀ {l l1 l2 : List (String × BodySettings)} {x : String × BodySettings},
      splitAtFree ak rk l = some (l1, x, l2) → isFreeOfRemaining ak rk x.2 = true := by
  intro l
  induction l with
  | nil => intro l1 l2 x h; simp [splitAtFree] at h
  | cons e rest ih =>
    intro l1 l2 x h
    cases hf : isFreeOfRemaining ak rk e.2 with
    | true =>
      simp [splitAtFree, hf] at h
      obtain ⟨h1, h2, h3⟩ := h
      rw [← h2]
      exact hf
    | false =>
      simp only [splitAtFree, hf, Bool.false_eq_true, if_false] at h
      cases hsub : splitAtFree ak rk rest with
      | none => rw [hsub] at h; simp at h
      | some p =>
        obtain ⟨p1, px, p2⟩ := p
        rw [hsub] at h
        simp at h
        obtain ⟨h1, h2, h3⟩ := h
        rw [← h2]
        exact ih hsub

theorem splitAtFree_none {ak rk : List String} :
    ∀ {l : List (String × BodySettings)}, splitAtFree ak rk l = none →
      ∀ e ∈ l, isFreeOfRemaining ak rk e.2 = false := by
  intro l
  induction l with
  | nil => intro _ e he; simp at he
  | cons e rest ih =>
    intro h e' he'
    cases hf : isFreeOfRemaining ak rk e.2 with
    | true => simp [splitAtFree, hf] at h
    | false =>
      simp only [splitAtFree, hf, Bool.false_eq_true, if_false] at h
      rcases List.mem_cons.mp he' with he1 | he1
      · rw [he1]; exact hf
      · cases hsub : splitAtFree ak rk rest with
        | none => exact ih hsub e' he1
        | some p => rw [hsub] at h; simp at h

theorem kahnGo_perm {ak : List String} :
    ∀ {fuel : Nat} {rem out : List (String × BodySettings)},
      kahnGo ak fuel rem = .ok out → out.Perm rem := by
  intro fuel
  induction fuel with
  | zero =>
    intro rem out h
    cases rem with
    | nil =>
      simp only [kahnGo] at h
      injection h with h
      subst h
      exact .refl []
    | cons e rest => simp only [kahnGo] at h; exact Except.noConfusion h
  | succ fuel ih =>
    intro rem out h
    cases rem with
    | nil =>
      simp only [kahnGo] at h
      injection h with h
      subst h
      exact .refl []
    | cons e rest =>
      simp only [kahnGo] at h
      split at h
      · rename_i l1 x l2 hsplit
        split at h
        · rename_i out' hsub
          injection h with h
          subst h
          have hperm : out'.Perm (l1 ++ l2) := ih hsub
          have happ := splitAtFree_append hsplit
          rw [happ]
          exact (hperm.cons x).trans List.perm_middle.symm
        · exact Except.noConfusion h
      · exact Except.noConfusion h

theorem kahnGo_sound {ak : List String} :
    ∀ {fuel : Nat} {rem out : List (String × BodySettings)},
      kahnGo ak fuel rem = .ok out →
      ∀ u y v, out = u ++ y :: v → ∀ o ∈ originsOf y.2, o ∈ ak →
        o ∉ mapKeys (y :: v) := by
  intro fuel
  induction fuel with
  | zero =>
    intro rem out h
    cases rem with
    | nil =>
      simp only [kahnGo] at h
      injection h with h
      subst h
      intro u y v huv
      exact absurd huv (by simp)
    | cons e rest => simp only [kahnGo] at h; exact Except.noConfusion h
  | succ fuel ih =>
    intro rem out h
    cases rem with
    | nil =>
      simp only [kahnGo] at h
      injection h with h
      subst h
      intro u y v huv
      exact absurd huv (by simp)
    | cons e rest =>
      simp only [kahnGo] at h
      split at h
      · rename_i l1 x l2 hsplit
        split at h
        · rename_i out' hsub
          injection h with h
          subst h
          intro u y v huv o ho hoak
          cases u with
          | nil =>
            simp only [List.nil_append, List.cons.injEq] at huv
            obtain ⟨hy, hv⟩ := huv
            subst hy
            subst hv
            have hfree := splitAtFree_free hsplit
            have hnot := isFree_eq_true hfree o ho hoak
            intro hmem
            apply hnot
            have hp : (x :: out').Perm (e :: rest) := by
              have hperm : out'.Perm (l1 ++ l2) := kahnGo_perm hsub
              have happ := splitAtFree_append hsplit
              rw [happ]
              exact (hperm.cons x).trans List.perm_middle.symm
            have hpk : (mapKeys (x :: out')).Perm (mapKeys (e :: rest)) :=
              hp.map Prod.fst
            exact hpk.mem_iff.mp hmem
          | cons a u' =>
            simp only [List.cons_append, List.cons.injEq] at huv
            exact ih hsub u' y v huv.2 o ho hoak
        · exact Except.noConfusion h
      · exact Except.noConfusion h

/-! Walk-to-cycle machinery: once the sort is stuck, every remaining body has
a blocking in-set dependency among the remaining bodies; iterating that
dependency must revisit a body, which therefore lies on a dependency cycle. -/

theorem chain_iterate (step : String → String) :
    ∀ (l : List String) (x : String),
      List.Chain' (fun a b => a = step b) (x :: l) →
      ∀ i (h : i < l.length), x = step^[i + 1] (l.get ⟨i, h⟩) := by
  intro l
  induction l with
  | nil => intro x _ i h; exact absurd h (by simp)
  | cons y l' ih =>
    intro x hch i h
    rcases List.chain'_cons.mp hch with ⟨hxy, hch'⟩
    cases i with
    | zero => simpa using hxy
    | succ j =>
      have hj : j < l'.length := by simpa using h
      have hy := ih y hch' j hj
      rw [Function.iterate_succ_apply']
      rw [show (y :: l').get ⟨j + 1, h⟩ = l'.get ⟨j, hj⟩ from rfl]
      rw [← hy]
      exact hxy

theorem walkToCycle_spec (S : List String) (step : String → String)
    (hstep : ∀ b ∈ S, step b ∈ S) :
    ∀ (fuel : Nat) (cur : String) (visited : List String),
      cur ∈ S → visited.Nodup → (∀ v ∈ visited, v ∈ S) →
      List.Chain' (fun a b => a = step b) (cur :: visited) →
      S.length + 1 ≤ fuel + visited.length →
      walkToCycle step fuel cur visited ∈ S ∧
        ∃ n, 0 < n ∧ step^[n] (walkToCycle step fuel cur visited) =
          walkToCycle step fuel cur visited := by
  intro fuel
  induction fuel with
  | zero =>
    intro cur visited hcur hnd hsub _ hlen
    exfalso
    have hsp : visited.Subperm S :=
      List.subperm_of_subset hnd fun v hv => hsub v hv
    have hle := hsp.length_le
    simp only [Nat.zero_add] at hlen
    omega
  | succ fuel ih =>
    intro cur visited hcur hnd hsub hch hlen
    by_cases hmem : cur ∈ visited
    · have heq : walkToCycle step (fuel + 1) cur visited = cur := by
        simp [walkToCycle, hmem]
      rw [heq]
      refine ⟨hcur, ?_⟩
      obtain ⟨⟨i, hi⟩, hget⟩ := List.get_of_mem hmem
      have hit := chain_iterate step visited cur hch i hi
      rw [hget] at hit
      exact ⟨i + 1, Nat.succ_pos i, hit.symm⟩
    · have heq : walkToCycle step (fuel + 1) cur visited =
          walkToCycle step fuel (step cur) (cur :: visited) := by
        simp [walkToCycle, hmem]
      rw [heq]
      apply ih (step cur) (cur :: visited) (hstep cur hcur)
        (List.nodup_cons.mpr ⟨hmem, hnd⟩)
      · intro v hv
        rcases List.mem_cons.mp hv with h1 | h1
        · exact h1 ▸ hcur
        · exact hsub v h1
      · exact List.chain'_cons.mpr ⟨rfl, hch⟩
      · simp only [List.length_cons]
        omega

theorem transGen_of_iterate {r : String → String → Prop} {S : List String}
    {step : String → String} (hedge : ∀ b ∈ S, r b (step b))
    (hstep : ∀ b ∈ S, step b ∈ S) :
    ∀ (n : Nat) (x : String), x ∈ S → Relation.TransGen r x (step^[n + 1] x) := by
  intro n
  induction n with
  | zero =>
    intro x hx
    rw [Function.iterate_one]
    exact .single (hedge x hx)
  | succ k ih =>
    intro x hx
    rw [Function.iterate_succ_apply]
    exact .head (hedge x hx) (ih (step x) (hstep x hx))

theorem stuck_cycle {m rem : List (String × BodySettings)}
    (hndm : (mapKeys m).Nodup) (hsub : ∀ p ∈ rem, p ∈ m)
    (hstuck : ∀ e ∈ rem, isFreeOfRemaining (mapKeys m) (mapKeys rem) e.2 = false)
    {start : String} (hstart : start ∈ mapKeys rem) :
    Relation.TransGen (depEdge m)
      (findCycleMember (mapKeys m) (mapKeys rem) rem start)
      (findCycleMember (mapKeys m) (mapKeys rem) rem start) := by
  have hkey : ∀ b ∈ mapKeys rem,
      blockingOriginOf (mapKeys m) (mapKeys rem) rem b ∈ mapKeys rem ∧
        depEdge m b (blockingOriginOf (mapKeys m) (mapKeys rem) rem b) := by
    intro b hb
    obtain ⟨s, hls⟩ := mapLookup_isSome_of_mem_keys hb
    have hmem : (b, s) ∈ rem := mapLookup_mem hls
    have hfree := hstuck (b, s) hmem
    obtain ⟨o, ho, hoak, hork⟩ := isFree_eq_false hfree
    have hfind :
        ((originsOf s).find? fun o =>
            (mapKeys m).contains o && (mapKeys rem).contains o) ≠ none := by
      intro hnone
      have hno := List.find?_eq_none.mp hnone o ho
      apply hno
      rw [string_contains_iff.mpr hoak, string_contains_iff.mpr hork]
      rfl
    cases hfo : (originsOf s).find? fun o =>
        (mapKeys m).contains o && (mapKeys rem).contains o with
    | none => exact absurd hfo hfind
    | some o' =>
      have hpo' := List.find?_some hfo
      have hmo' := List.mem_of_find?_eq_some hfo
      have hsplit : (mapKeys m).contains o' = true ∧ (mapKeys rem).contains o' = true := by
        simpa using hpo'
      have hstep_eq : blockingOriginOf (mapKeys m) (mapKeys rem) rem b = o' := by
        simp only [blockingOriginOf, hls, Option.some_bind, hfo, Option.getD_some]
      rw [hstep_eq]
      constructor
      · exact string_contains_iff.mp hsplit.2
      · refine ⟨⟨s, ?_, hmo'⟩, string_contains_iff.mp hsplit.1⟩
        exact mapLookup_of_mem hndm (hsub (b, s) hmem)
  have hstep : ∀ b ∈ mapKeys rem,
      blockingOriginOf (mapKeys m) (mapKeys rem) rem b ∈ mapKeys rem :=
    fun b hb => (hkey b hb).1
  have hedge : ∀ b ∈ mapKeys rem,
      depEdge m b (blockingOriginOf (mapKeys m) (mapKeys rem) rem b) :=
    fun b hb => (hkey b hb).2
  have hwalk := walkToCycle_spec (mapKeys rem)
    (blockingOriginOf (mapKeys m) (mapKeys rem) rem) hstep
    ((mapKeys rem).length + 1) start [] hstart List.nodup_nil (by simp)
    (List.chain'_singleton start) (by simp)
  obtain ⟨hcS, n, hn, hfix⟩ := hwalk
  cases n with
  | zero => exact absurd hn (by simp)
  | succ k =>
    have htg := transGen_of_iterate hedge hstep k _ hcS
    rw [hfix] at htg
    exact htg

theorem kahnGo_error_spec {m : List (String × BodySettings)}
    (hndm : (mapKeys m).Nodup) :
    ∀ {fuel : Nat} {rem : List (String × BodySettings)} {c : String},
      rem.length ≤ fuel → (∀ p ∈ rem, p ∈ m) →
      kahnGo (mapKeys m) fuel rem = .error (.cycleDetected c) →
      Relation.TransGen (depEdge m) c c := by
  intro fuel
  induction fuel with
  | zero =>
    intro rem c hlen hsub h
    cases rem with
    | nil => exact Except.noConfusion h
    | cons e rest => simp at hlen
  | succ fuel ih =>
    intro rem c hlen hsub h
    cases rem with
    | nil => exact Except.noConfusion h
    | cons e rest =>
      simp only [kahnGo] at h
      split at h
      · rename_i l1 x l2 hsplit
        split at h
        · exact Except.noConfusion h
        · rename_i err hsub'
          injection h with h
          subst h
          have happ := splitAtFree_append hsplit
          have hlen' : (l1 ++ l2).length ≤ fuel := by
            have h1 : (e :: rest).length = (l1 ++ x :: l2).length := by rw [happ]
            simp only [List.length_cons, List.length_append] at h1 hlen ⊢
            omega
          have hsub2 : ∀ q ∈ l1 ++ l2, q ∈ m := by
            intro q hq
            apply hsub
            rw [happ]
            rcases List.mem_append.mp hq with h1 | h1
            · exact List.mem_append.mpr (Or.inl h1)
            · exact List.mem_append.mpr (Or.inr (List.mem_cons_of_mem _ h1))
          exact ih hlen' hsub2 hsub'
      · rename_i hsplit
        injection h with h
        injection h with h
        subst h
        exact stuck_cycle hndm hsub (splitAtFree_none hsplit)
          (List.mem_cons_self e.1 (mapKeys rest))

theorem kahnGo_ok_exists {m : List (String × BodySettings)}
    (hndm : (mapKeys m).Nodup)
    (hacyc : ∀ b, ¬ Relation.TransGen (depEdge m) b b) :
    ∀ {fuel : Nat} {rem : List (String × BodySettings)},
      rem.length ≤ fuel → (∀ p ∈ rem, p ∈ m) →
      ∃ out, kahnGo (mapKeys m) fuel rem = .ok out := by
  intro fuel
  induction fuel with
  | zero =>
    intro rem hlen hsub
    cases rem with
    | nil => exact ⟨[], rfl⟩
    | cons e rest => simp at hlen
  | succ fuel ih =>
    intro rem hlen hsub
    cases rem with
    | nil => exact ⟨[], rfl⟩
    | cons e rest =>
      cases hsplit : splitAtFree (mapKeys m) (mapKeys (e :: rest)) (e :: rest) with
      | some p =>
        obtain ⟨l1, x, l2⟩ := p
        have happ := splitAtFree_append hsplit
        have hlen' : (l1 ++ l2).length ≤ fuel := by
          have h1 : (e :: rest).length = (l1 ++ x :: l2).length := by rw [happ]
          simp only [List.length_cons, List.length_append] at h1 hlen ⊢
          omega
        have hsub2 : ∀ q ∈ l1 ++ l2, q ∈ m := by
          intro q hq
          apply hsub
          rw [happ]
          rcases List.mem_append.mp hq with h1 | h1
          · exact List.mem_append.mpr (Or.inl h1)
          · exact List.mem_append.mpr (Or.inr (List.mem_cons_of_mem _ h1))
        obtain ⟨out', hout⟩ := ih hlen' hsub2
        refine ⟨x :: out', ?_⟩
        simp [kahnGo, hsplit, hout]
      | none =>
        exact absurd
          (stuck_cycle hndm hsub (splitAtFree_none hsplit)
            (List.mem_cons_self e.1 (mapKeys rest)))
          (hacyc _)

theorem kahnGo_ok_before {m out : List (String × BodySettings)} {fuel : Nat}
    (hndm : (mapKeys m).Nodup)
    (hok : kahnGo (mapKeys m) fuel m = .ok out) :
    ∀ {B O : String}, depEdge m B O →
      (mapKeys out).indexOf O < (mapKeys out).indexOf B := by
  intro B O hBO
  obtain ⟨⟨s, hls, hOs⟩, hOk⟩ := hBO
  have hBm : (B, s) ∈ m := mapLookup_mem hls
  have hperm : out.Perm m := kahnGo_perm hok
  have hBout : (B, s) ∈ out := hperm.mem_iff.mpr hBm
  obtain ⟨u, v, huv⟩ := List.append_of_mem hBout
  have hsound := kahnGo_sound hok u (B, s) v huv O hOs hOk
  have hOout : O ∈ mapKeys out := ((hperm.map Prod.fst).mem_iff).mpr hOk
  have hkeys : mapKeys out = mapKeys u ++ B :: mapKeys v := by
    rw [huv]
    simp [mapKeys]
  have hndout : (mapKeys out).Nodup := ((hperm.map Prod.fst).nodup_iff).mpr hndm
  have hOu : O ∈ mapKeys u := by
    rw [hkeys] at hOout
    rcases List.mem_append.mp hOout with h1 | h1
    · exact h1
    · exact absurd h1 (by simpa using hsound)
  have hBu : B ∉ mapKeys u := by
    rw [hkeys] at hndout
    rcases List.nodup_append.mp hndout with ⟨_, _, hdisj⟩
    intro hBmem
    exact hdisj hBmem (List.mem_cons_self _ _)
  rw [hkeys, List.indexOf_append_of_mem hOu, List.indexOf_append_of_not_mem hBu,
    List.indexOf_cons_self]
  have hlt := List.indexOf_lt_length.mpr hOu
  omega

theorem depEdge_transGen_lt {m out : List (String × BodySettings)} {fuel : Nat}
    (hndm : (mapKeys m).Nodup)
    (hok : kahnGo (mapKeys m) fuel m = .ok out) :
    ∀ {a b : String}, Relation.TransGen (depEdge m) a b →
      (mapKeys out).indexOf b < (mapKeys out).indexOf a := by
  intro a b h
  induction h with
  | single h1 => exact kahnGo_ok_before hndm hok h1
  | tail _ h2 ih => exact Nat.lt_trans (kahnGo_ok_before hndm hok h2) ih

/-- C4: for every input mapping with unique body names whose frame-origin
dependency graph is acyclic, the resolver returns an order in which every
frame origin that is itself a key of the mapping appears strictly before
each body that declares it. -/
theorem claim_C4 (m : List (String × BodySettings))
    (hnd : (mapKeys m).Nodup)
    (hacyc : ∀ b, ¬ Relation.TransGen (depEdge m) b b) :
    ∃ order, determineBodyCreationOrder m = .ok order ∧
      ∀ B s, (B, s) ∈ m → ∀ O ∈ originsOf s, O ∈ mapKeys m →
        (mapKeys order).indexOf O < (mapKeys order).indexOf B := by
  obtain ⟨out, hout⟩ :=
    kahnGo_ok_exists hnd hacyc (Nat.le_refl m.length) fun p hp => hp
  refine ⟨out, hout, ?_⟩
  intro B s hBs O hO hOk
  exact kahnGo_ok_before hnd hout ⟨⟨s, mapLookup_of_mem hnd hBs, hO⟩, hOk⟩

/-- C5: whenever the frame-origin dependency graph of the mapping has a
cycle (necessarily among bodies present in the mapping), the resolver
deterministically fails with CycleDetected naming a body that lies on a
dependency cycle, and no order is returned. -/
theorem claim_C5 (m : List (String × BodySettings))
    (hnd : (mapKeys m).Nodup)
    (hcyc : ∃ c, Relation.TransGen (depEdge m) c c) :
    ∃ b, determineBodyCreationOrder m = .error (.cycleDetected b) ∧
      Relation.TransGen (depEdge m) b b := by
  obtain ⟨c, hc⟩ := hcyc
  cases hres : determineBodyCreationOrder m with
  | ok out =>
    exfalso
    have hlt := depEdge_transGen_lt hnd hres hc
    exact Nat.lt_irrefl _ hlt
  | error err =>
    cases err with
    | cycleDetected b =>
      exact ⟨b, rfl,
        kahnGo_error_spec hnd (Nat.le_refl m.length) (fun p hp => hp) hres⟩

/-! Concrete inputs for the resolver claims. -/

def settingsRoot : BodySettings := {}

def settingsChild : BodySettings :=
  { ephemerisSettings := some { frameOrigin := "Alpha", frameOrientation := "ECLIPJ2000" } }

def acyclicSettingsMap : List (String × BodySettings) :=
  [("Alpha", settingsRoot), ("Beta", settingsChild)]

theorem acyclic_map_edges {b o : String} (h : depEdge acyclicSettingsMap b o) :
    b = "Beta" ∧ o = "Alpha" := by
  obtain ⟨⟨s, hls, ho⟩, _⟩ := h
  by_cases h1 : b = "Alpha"
  · subst h1
    have hs : s = settingsRoot := by
      have : some settingsRoot = some s := by
        simpa [acyclicSettingsMap, mapLookup] using hls
      exact (Option.some.injEq .. ▸ this).symm
    rw [hs] at ho
    simp [settingsRoot, originsOf] at ho
  · by_cases h2 : b = "Beta"
    · subst h2
      have hs : s = settingsChild := by
        have h1' : ¬("Alpha" = "Beta") := by decide
        have : some settingsChild = some s := by
          simpa [acyclicSettingsMap, mapLookup, h1'] using hls
        exact (Option.some.injEq .. ▸ this).symm
      rw [hs] at ho
      simp [settingsChild, originsOf] at ho
      exact ⟨rfl, ho⟩
    · exfalso
      have h1' : ¬("Alpha" = b) := fun he => h1 he.symm
      have h2' : ¬("Beta" = b) := fun he => h2 he.symm
      simp [acyclicSettingsMap, mapLookup, h1', h2'] at hls

theorem acyclic_map_no_cycle :
    ∀ b, ¬ Relation.TransGen (depEdge acyclicSettingsMap) b b := by
  have hchar : ∀ x y, Relation.TransGen (depEdge acyclicSettingsMap) x y →
      x = "Beta" ∧ y = "Alpha" := by
    intro x y h
    induction h with
    | single h1 => exact acyclic_map_edges h1
    | tail _ h2 ih =>
      exact absurd (ih.2.symm.trans (acyclic_map_edges h2).1) (by decide)
  intro b h
  have hb := hchar b b h
  exact absurd (hb.1.symm.trans hb.2) (by decide)

/-- Witness instantiating claim_C4 on a concrete acyclic two-body mapping. -/
theorem claim_C4_witness :
    ∃ order, determineBodyCreationOrder acyclicSettingsMap = .ok order ∧
      ∀ B s, (B, s) ∈ acyclicSettingsMap → ∀ O ∈ originsOf s,
        O ∈ mapKeys acyclicSettingsMap →
        (mapKeys order).indexOf O < (mapKeys order).indexOf B :=
  claim_C4 acyclicSettingsMap (by decide) acyclic_map_no_cycle

def settingsLoopA : BodySettings :=
  { ephemerisSettings := some { frameOrigin := "LoopB", frameOrientation := "ECLIPJ2000" } }

def settingsLoopB : BodySettings :=
  { rotationModelSettings := some { frameOrigin := "LoopA" } }

def cyclicSettingsMap : List (String × BodySettings) :=
  [("LoopA", settingsLoopA), ("LoopB", settingsLoopB)]

theorem cyclic_edge_ab : depEdge cyclicSettingsMap "LoopA" "LoopB" := by
  refine ⟨⟨settingsLoopA, by decide, by decide⟩, by decide⟩

theorem cyclic_edge_ba : depEdge cyclicSettingsMap "LoopB" "LoopA" := by
  refine ⟨⟨settingsLoopB, by decide, by decide⟩, by decide⟩

/-- Witness instantiating claim_C5 on a concrete two-body dependency cycle. -/
theorem claim_C5_witness :
    ∃ b, determineBodyCreationOrder cyclicSettingsMap = .error (.cycleDetected b) ∧
      Relation.TransGen (depEdge cyclicSettingsMap) b b :=
  claim_C5 cyclicSettingsMap (by decide)
    ⟨"LoopA", Relation.TransGen.head cyclic_edge_ab
      (Relation.TransGen.single cyclic_edge_ba)⟩

/-! ## Frame Consistency Enforcer (setGlobalFrameBodyEphemerides,
createBodies.h lines 97-175)

The class Body and its collaborators (Ephemeris, RotationalEphemeris,
BaseStateInterface) live outside the fragment; they are modelled from the
spec: a Body exposes an optional ephemeris (a time-to-state function plus a
declared frame origin and orientation), an optional rotational ephemeris (a
declared base frame orientation), and a mutable slot for a base-frame
translation adapter, populated only by the enforcer.

A time value is coded as an integer and a state as an integer 6-vector;
the C++ template parameters StateScalarType and TimeType are carried as
NumRep tags on the constructed adapter: the bound state function
Body::getStateInBaseFrameFromEphemeris< StateScalarType, TimeType > is
instantiated at the enforcer's parameters, while the wrapper object is
constructed as BaseStateInterfaceImplementation< double, double >
(createBodies.h line 134). -/

abbrev StateVec := Fin 6 → ℤ

/-- Numeric representation chosen for a state scalar or a time value. -/
inductive NumRep where
  | double
  | longDouble
  | timeRep
deriving DecidableEq

structure Ephemeris where
  getCartesianState : ℤ → StateVec
  referenceFrameOrigin : String
  referenceFrameOrientation : String

structure RotationalEphemeris where
  baseFrameOrientation : String
deriving DecidableEq

/-- Base-state translation adapter: named after the frame origin it converts
from, binding the origin body's state query (resolved by name against the
live body map at call time).  The NumRep tags record the numeric types the
two halves were instantiated at. -/
structure BaseStateInterface where
  baseFrameId : String
  stateFunctionBody : String
  stateFunctionScalar : NumRep
  stateFunctionTime : NumRep
  interfaceScalar : NumRep
  interfaceTime : NumRep
deriving DecidableEq

structure Body where
  ephemeris : Option Ephemeris := none
  rotationalEphemeris : Option RotationalEphemeris := none
  ephemerisFrameToBaseFrame : Option BaseStateInterface := none

abbrev NamedBodyMap := List (String × Body)

inductive FrameError where
  | missingFrameOrigin (body : String) (origin : String) (globalOrigin : String)
  | frameOrientationMismatch (body : String) (declaredOrientation : String)
      (globalOrientation : String)
deriving DecidableEq

/-- Adapter constructed at createBodies.h lines 130-135: the bound state
function is getStateInBaseFrameFromEphemeris< StateScalarType, TimeType > of
the origin body, the wrapper is BaseStateInterfaceImplementation< double,
double >. -/
def mkAdapter (S T : NumRep) (origin : String) : BaseStateInterface :=
  { baseFrameId := origin
    stateFunctionBody := origin
    stateFunctionScalar := S
    stateFunctionTime := T
    interfaceScalar := .double
    interfaceTime := .double }

/-- Rotational-ephemeris check, createBodies.h lines 157-172. -/
def checkRotation (m : NamedBodyMap) (nm : String) (body : Body)
    (globalFrameOrientation : String) : NamedBodyMap × Option FrameError :=
  match body.rotationalEphemeris with
  | none => (m, none)
  | some rot =>
    if rot.baseFrameOrientation = globalFrameOrientation then (m, none)
    else (m, some (.frameOrientationMismatch nm rot.baseFrameOrientation
      globalFrameOrientation))

/-- Body of the loop of setGlobalFrameBodyEphemerides (createBodies.h lines
108-173) for one body: ephemeris origin check with adapter attachment,
ephemeris orientation check, rotational-ephemeris base-frame check; the
first failure is returned together with the map as mutated so far. -/
def processBodyFrame (S T : NumRep) (globalFrameOrigin globalFrameOrientation : String)
    (m : NamedBodyMap) (nm : String) : NamedBodyMap × Option FrameError :=
  match mapLookup m nm with
  | none => (m, none)
  | some body =>
    match body.ephemeris with
    | none => checkRotation m nm body globalFrameOrientation
    | some eph =>
      if eph.referenceFrameOrigin = globalFrameOrigin then
        if eph.referenceFrameOrientation = globalFrameOrientation then
          checkRotation m nm body globalFrameOrientation
        else
          (m, some (.frameOrientationMismatch nm eph.referenceFrameOrientation
            globalFrameOrientation))
      else if (mapLookup m eph.referenceFrameOrigin).isNone then
        (m, some (.missingFrameOrigin nm eph.referenceFrameOrigin
          globalFrameOrigin))
      else
        let m' := mapUpdate m nm { body with
          ephemerisFrameToBaseFrame := some (mkAdapter S T eph.referenceFrameOrigin) }
        if eph.referenceFrameOrientation = globalFrameOrientation then
          checkRotation m' nm body globalFrameOrientation
        else
          (m', some (.frameOrientationMismatch nm eph.referenceFrameOrientation
            globalFrameOrientation))

/-- The iteration of setGlobalFrameBodyEphemerides over the body map,
stopping at the first failure; the returned map reflects all mutations
performed up to that point. -/
def setGlobalFrameLoop (S T : NumRep) (globalFrameOrigin globalFrameOrientation : String) :
    NamedBodyMap → List String → NamedBodyMap × Option FrameError
  | m, [] => (m, none)
  | m, nm :: rest =>
    match processBodyFrame S T globalFrameOrigin globalFrameOrientation m nm with
    | (m', none) => setGlobalFrameLoop S T globalFrameOrigin globalFrameOrientation m' rest
    | (m', some e) => (m', some e)

/-- setGlobalFrameBodyEphemerides (createBodies.h lines 97-175): iterate over
all bodies in map (key) order; returns the mutated map and the first failure
encountered, if any. -/
def setGlobalFrameBodyEphemerides (S T : NumRep) (bodyMap : NamedBodyMap)
    (globalFrameOrigin globalFrameOrientation : String) :
    NamedBodyMap × Option FrameError :=
  setGlobalFrameLoop S T globalFrameOrigin globalFrameOrientation bodyMap
    (mapKeys bodyMap)

/-- Modelled from the spec: Body::getStateInBaseFrameFromEphemeris (class Body
is outside the fragment) evaluates the body's own state through its ephemeris
and any translation adapter attached to it, resolved against the live body
map; the fuel bounds the frame-chain depth (the C++ recursion through bound
shared pointers). -/
def getStateInBaseFrameFromEphemeris (m : NamedBodyMap) :
    Nat → String → ℤ → StateVec
  | 0, _, _ => 0
  | fuel + 1, nm, t =>
    match mapLookup m nm with
    | none => 0
    | some b =>
      (match b.ephemeris with
       | some e => e.getCartesianState t
       | none => 0) +
      (match b.ephemerisFrameToBaseFrame with
       | some iface => getStateInBaseFrameFromEphemeris m fuel iface.stateFunctionBody t
       | none => 0)

/-- Invoking a translation adapter: evaluate the bound body's state query on
the live map at the given time. -/
def invokeBaseStateInterface (m : NamedBodyMap) (iface : BaseStateInterface)
    (fuel : Nat) (t : ℤ) : StateVec :=
  getStateInBaseFrameFromEphemeris m fuel iface.stateFunctionBody t

/-- Net effect of a successful enforcer pass on one body: an adapter is
attached exactly when the body has an ephemeris whose origin differs from
the global origin. -/
def transformBody (S T : NumRep) (globalFrameOrigin : String) (b : Body) : Body :=
  match b.ephemeris with
  | none => b
  | some eph =>
    if eph.referenceFrameOrigin = globalFrameOrigin then b
    else { b with
      ephemerisFrameToBaseFrame := some (mkAdapter S T eph.referenceFrameOrigin) }

/-- The per-body frame conditions checked by the enforcer. -/
def bodyPasses (keys : List String) (globalFrameOrigin globalFrameOrientation : String)
    (b : Body) : Bool :=
  (match b.ephemeris with
   | some e =>
     (decide (e.referenceFrameOrigin = globalFrameOrigin) ||
       keys.contains e.referenceFrameOrigin) &&
       decide (e.referenceFrameOrientation = globalFrameOrientation)
   | none => true) &&
  (match b.rotationalEphemeris with
   | some r => decide (r.baseFrameOrientation = globalFrameOrientation)
   | none => true)

/-- Relation between the initial and the current body map during (or after)
an enforcer pass: keys unchanged, and every body is either untouched or has
had its translation adapter attached per its own ephemeris declaration. -/
def adapterEvolved (S T : NumRep) (globalFrameOrigin : String)
    (m m' : NamedBodyMap) : Prop :=
  mapKeys m' = mapKeys m ∧
    ∀ x b', mapLookup m' x = some b' →
      ∃ b, mapLookup m x = some b ∧
        (b' = b ∨ b' = transformBody S T globalFrameOrigin b)

/-! ## Enforcer lemmas -/

/-- The per-body frame conditions, in propositional form. -/
def bodyOkay (keys : List String) (globalFrameOrigin globalFrameOrientation : String)
    (b : Body) : Prop :=
  (∀ e, b.ephemeris = some e →
    (e.referenceFrameOrigin = globalFrameOrigin ∨ e.referenceFrameOrigin ∈ keys) ∧
      e.referenceFrameOrientation = globalFrameOrientation) ∧
  (∀ r, b.rotationalEphemeris = some r →
    r.baseFrameOrientation = globalFrameOrientation)

theorem bodyPasses_iff (keys : List String) (go gor : String) (b : Body) :
    bodyPasses keys go gor b = true ↔ bodyOkay keys go gor b := by
  cases hbe : b.ephemeris with
  | none =>
    cases hr : b.rotationalEphemeris with
    | none => simp [bodyPasses, bodyOkay, hbe, hr]
    | some rot => simp [bodyPasses, bodyOkay, hbe, hr]
  | some eph =>
    cases hr : b.rotationalEphemeris with
    | none => simp [bodyPasses, bodyOkay, hbe, hr, string_contains_iff]
    | some rot => simp [bodyPasses, bodyOkay, hbe, hr, string_contains_iff]

theorem mapLookup_isNone_iff {α : Type} (m : List (String × α)) (k : String) :
    (mapLookup m k).isNone = true ↔ k ∉ mapKeys m := by
  rw [Option.isNone_iff_eq_none]
  exact mapLookup_eq_none m k

theorem transformBody_ephemeris (S T : NumRep) (go : String) (b : Body) :
    (transformBody S T go b).ephemeris = b.ephemeris := by
  cases he : b.ephemeris with
  | none => simp [transformBody, he]
  | some e =>
    by_cases h : e.referenceFrameOrigin = go <;> simp [transformBody, he, h]

theorem transformBody_rotational (S T : NumRep) (go : String) (b : Body) :
    (transformBody S T go b).rotationalEphemeris = b.rotationalEphemeris := by
  cases he : b.ephemeris with
  | none => simp [transformBody, he]
  | some e =>
    by_cases h : e.referenceFrameOrigin = go <;> simp [transformBody, he, h]

theorem transformBody_self {S T : NumRep} {go : String} {b : Body}
    (h : b.ephemeris = none ∨ ∃ e, b.ephemeris = some e ∧ e.referenceFrameOrigin = go) :
    transformBody S T go b = b := by
  rcases h with h | ⟨e, he, horig⟩
  · simp [transformBody, h]
  · simp [transformBody, he, horig]

theorem transformBody_attach {S T : NumRep} {go : String} {b : Body} {e : Ephemeris}
    (he : b.ephemeris = some e) (h : e.referenceFrameOrigin ≠ go) :
    transformBody S T go b =
      { b with ephemerisFrameToBaseFrame := some (mkAdapter S T e.referenceFrameOrigin) } := by
  simp [transformBody, he, h]

theorem transformBody_idem (S T : NumRep) (go : String) (b : Body) :
    transformBody S T go (transformBody S T go b) = transformBody S T go b := by
  cases he : b.ephemeris with
  | none => rw [transformBody_self (Or.inl he), transformBody_self (Or.inl he)]
  | some e =>
    by_cases h : e.referenceFrameOrigin = go
    · rw [transformBody_self (Or.inr ⟨e, he, h⟩), transformBody_self (Or.inr ⟨e, he, h⟩)]
    · rw [transformBody_attach he h]
      have he' : (Body.mk b.ephemeris b.rotationalEphemeris
          (some (mkAdapter S T e.referenceFrameOrigin))).ephemeris = some e := he
      rw [transformBody_attach he' h]

theorem checkRotation_map (m : NamedBodyMap) (nm : String) (body : Body) (gor : String) :
    (checkRotation m nm body gor).1 = m := by
  cases hr : body.rotationalEphemeris with
  | none => simp [checkRotation, hr]
  | some rot =>
    by_cases h : rot.baseFrameOrientation = gor <;> simp [checkRotation, hr, h]

theorem checkRotation_none_iff (m : NamedBodyMap) (nm : String) (body : Body) (gor : String) :
    (checkRotation m nm body gor).2 = none ↔
      ∀ r, body.rotationalEphemeris = some r → r.baseFrameOrientation = gor := by
  cases hr : body.rotationalEphemeris with
  | none => simp [checkRotation, hr]
  | some rot =>
    by_cases h : rot.baseFrameOrientation = gor <;> simp [checkRotation, hr, h]

theorem checkRotation_mismatch {body : Body} {rot : RotationalEphemeris}
    (m : NamedBodyMap) (nm gor : String)
    (hr : body.rotationalEphemeris = some rot) (h : rot.baseFrameOrientation ≠ gor) :
    checkRotation m nm body gor =
      (m, some (.frameOrientationMismatch nm rot.baseFrameOrientation gor)) := by
  simp [checkRotation, hr, h]

theorem processBodyFrame_not_found {S T : NumRep} {go gor : String} {m : NamedBodyMap}
    {nm : String} (h : mapLookup m nm = none) :
    processBodyFrame S T go gor m nm = (m, none) := by
  simp [processBodyFrame, h]

theorem adapterEvolved_refl (S T : NumRep) (go : String) (m : NamedBodyMap) :
    adapterEvolved S T go m m :=
  ⟨rfl, fun _ b' h => ⟨b', h, Or.inl rfl⟩⟩

theorem adapterEvolved_trans {S T : NumRep} {go : String} {m1 m2 m3 : NamedBodyMap}
    (h12 : adapterEvolved S T go m1 m2) (h23 : adapterEvolved S T go m2 m3) :
    adapterEvolved S T go m1 m3 := by
  refine ⟨h23.1.trans h12.1, ?_⟩
  intro x b3 h3
  obtain ⟨b2, h2, hb32⟩ := h23.2 x b3 h3
  obtain ⟨b1, h1, hb21⟩ := h12.2 x b2 h2
  refine ⟨b1, h1, ?_⟩
  rcases hb32 with rfl | rfl
  · exact hb21
  · rcases hb21 with rfl | rfl
    · exact Or.inr rfl
    · exact Or.inr (transformBody_idem S T go b1)

theorem processBodyFrame_evolved (S T : NumRep) (go gor : String) (m : NamedBodyMap)
    (nm : String) :
    adapterEvolved S T go m (processBodyFrame S T go gor m nm).1 := by
  cases hl : mapLookup m nm with
  | none =>
    rw [processBodyFrame_not_found hl]
    exact adapterEvolved_refl S T go m
  | some body =>
    cases hbe : body.ephemeris with
    | none =>
      have hstep : processBodyFrame S T go gor m nm = checkRotation m nm body gor := by
        simp [processBodyFrame, hl, hbe]
      rw [hstep, checkRotation_map]
      exact adapterEvolved_refl S T go m
    | some eph =>
      by_cases h1 : eph.referenceFrameOrigin = go
      · by_cases h2 : eph.referenceFrameOrientation = gor
        · have hstep : processBodyFrame S T go gor m nm = checkRotation m nm body gor := by
            simp [processBodyFrame, hl, hbe, h1, h2]
          rw [hstep, checkRotation_map]
          exact adapterEvolved_refl S T go m
        · have hstep : (processBodyFrame S T go gor m nm).1 = m := by
            simp [processBodyFrame, hl, hbe, h1, h2]
          rw [hstep]
          exact adapterEvolved_refl S T go m
      · by_cases h3 : (mapLookup m eph.referenceFrameOrigin).isNone
        · have hstep : (processBodyFrame S T go gor m nm).1 = m := by
            simp [processBodyFrame, hl, hbe, h1, h3]
          rw [hstep]
          exact adapterEvolved_refl S T go m
        · have hupd : (processBodyFrame S T go gor m nm).1 =
              mapUpdate m nm { body with
                ephemerisFrameToBaseFrame := some (mkAdapter S T eph.referenceFrameOrigin) } := by
            by_cases h2 : eph.referenceFrameOrientation = gor
            · simp [processBodyFrame, hl, hbe, h1, h3, h2, checkRotation_map]
            · simp [processBodyFrame, hl, hbe, h1, h3, h2]
          rw [hupd, ← transformBody_attach hbe h1]
          constructor
          · rw [mapKeys_update]
          · intro x b' hx
            by_cases hxnm : x = nm
            · subst hxnm
              rw [mapLookup_update_self, hl] at hx
              simp at hx
              exact ⟨body, hl, Or.inr hx.symm⟩
            · rw [mapLookup_update_ne _ _ hxnm] at hx
              exact ⟨b', hx, Or.inl rfl⟩

theorem processBodyFrame_none_iff (S T : NumRep) (go gor : String) (m : NamedBodyMap)
    (nm : String) :
    (processBodyFrame S T go gor m nm).2 = none ↔
      ∀ b, mapLookup m nm = some b → bodyOkay (mapKeys m) go gor b := by
  cases hl : mapLookup m nm with
  | none =>
    rw [processBodyFrame_not_found hl]
    simp
  | some body =>
    have hR : (∀ b, (some body : Option Body) = some b →
        bodyOkay (mapKeys m) go gor b) ↔ bodyOkay (mapKeys m) go gor body := by
      simp
    rw [hR]
    cases hbe : body.ephemeris with
    | none =>
      have hstep : processBodyFrame S T go gor m nm = checkRotation m nm body gor := by
        simp [processBodyFrame, hl, hbe]
      rw [hstep, checkRotation_none_iff]
      simp [bodyOkay, hbe]
    | some eph =>
      by_cases h1 : eph.referenceFrameOrigin = go
      · by_cases h2 : eph.referenceFrameOrientation = gor
        · have hstep : processBodyFrame S T go gor m nm = checkRotation m nm body gor := by
            simp [processBodyFrame, hl, hbe, h1, h2]
          rw [hstep, checkRotation_none_iff]
          simp [bodyOkay, hbe, h1, h2]
        · have hstep : (processBodyFrame S T go gor m nm).2 =
              some (.frameOrientationMismatch nm eph.referenceFrameOrientation gor) := by
            simp [processBodyFrame, hl, hbe, h1, h2]
          rw [hstep]
          simp [bodyOkay, hbe, h2]
      · by_cases h3 : (mapLookup m eph.referenceFrameOrigin).isNone
        · have hmem : eph.referenceFrameOrigin ∉ mapKeys m :=
            (mapLookup_isNone_iff m eph.referenceFrameOrigin).mp h3
          have hstep : (processBodyFrame S T go gor m nm).2 =
              some (.missingFrameOrigin nm eph.referenceFrameOrigin go) := by
            simp [processBodyFrame, hl, hbe, h1, h3]
          rw [hstep]
          simp [bodyOkay, hbe, h1, hmem]
        · have hmem : eph.referenceFrameOrigin ∈ mapKeys m := by
            by_contra hmem
            exact h3 ((mapLookup_isNone_iff m eph.referenceFrameOrigin).mpr hmem)
          by_cases h2 : eph.referenceFrameOrientation = gor
          · have hstep : processBodyFrame S T go gor m nm =
                checkRotation (mapUpdate m nm { body with
                  ephemerisFrameToBaseFrame :=
                    some (mkAdapter S T eph.referenceFrameOrigin) }) nm body gor := by
              simp [processBodyFrame, hl, hbe, h1, h3, h2]
            rw [hstep, checkRotation_none_iff]
            simp [bodyOkay, hbe, hmem, h2]
          · have hstep : (processBodyFrame S T go gor m nm).2 =
                some (.frameOrientationMismatch nm eph.referenceFrameOrientation gor) := by
              simp [processBodyFrame, hl, hbe, h1, h3, h2]
            rw [hstep]
            simp [bodyOkay, hbe, h2]

theorem processBodyFrame_ok_lookup (S T : NumRep) (go gor : String) (m : NamedBodyMap)
    (nm : String) (hok : (processBodyFrame S T go gor m nm).2 = none) :
    ∀ x, mapLookup (processBodyFrame S T go gor m nm).1 x =
      if x = nm then (mapLookup m x).map (transformBody S T go)
      else mapLookup m x := by
  intro x
  cases hl : mapLookup m nm with
  | none =>
    rw [processBodyFrame_not_found hl]
    by_cases hx : x = nm
    · subst hx
      rw [if_pos rfl, hl]
      rfl
    · rw [if_neg hx]
  | some body =>
    have hself : ∀ mm : NamedBodyMap, mm = m →
        transformBody S T go body = body →
        mapLookup mm x =
          (if x = nm then (mapLookup m x).map (transformBody S T go)
            else mapLookup m x) := by
      intro mm hmm htb
      subst hmm
      by_cases hx : x = nm
      · subst hx
        rw [if_pos rfl, hl]
        simp [htb]
      · rw [if_neg hx]
    cases hbe : body.ephemeris with
    | none =>
      have hstep : processBodyFrame S T go gor m nm = checkRotation m nm body gor := by
        simp [processBodyFrame, hl, hbe]
      rw [hstep, checkRotation_map]
      exact hself m rfl (transformBody_self (Or.inl hbe))
    | some eph =>
      by_cases h1 : eph.referenceFrameOrigin = go
      · have htb : transformBody S T go body = body :=
          transformBody_self (Or.inr ⟨eph, hbe, h1⟩)
        by_cases h2 : eph.referenceFrameOrientation = gor
        · have hstep : processBodyFrame S T go gor m nm = checkRotation m nm body gor := by
            simp [processBodyFrame, hl, hbe, h1, h2]
          rw [hstep, checkRotation_map]
          exact hself m rfl htb
        · exfalso
          have hstep : (processBodyFrame S T go gor m nm).2 =
              some (.frameOrientationMismatch nm eph.referenceFrameOrientation gor) := by
            simp [processBodyFrame, hl, hbe, h1, h2]
          rw [hstep] at hok
          exact Option.noConfusion hok
      · by_cases h3 : (mapLookup m eph.referenceFrameOrigin).isNone
        · exfalso
          have hstep : (processBodyFrame S T go gor m nm).2 =
              some (.missingFrameOrigin nm eph.referenceFrameOrigin go) := by
            simp [processBodyFrame, hl, hbe, h1, h3]
          rw [hstep] at hok
          exact Option.noConfusion hok
        · by_cases h2 : eph.referenceFrameOrientation = gor
          · have hstep : processBodyFrame S T go gor m nm =
                checkRotation (mapUpdate m nm { body with
                  ephemerisFrameToBaseFrame :=
                    some (mkAdapter S T eph.referenceFrameOrigin) }) nm body gor := by
              simp [processBodyFrame, hl, hbe, h1, h3, h2]
            rw [hstep, checkRotation_map, ← transformBody_attach hbe h1]
            by_cases hx : x = nm
            · subst hx
              rw [if_pos rfl, mapLookup_update_self, hl]
              rfl
            · rw [if_neg hx, mapLookup_update_ne _ _ hx]
          · exfalso
            have hstep : (processBodyFrame S T go gor m nm).2 =
                some (.frameOrientationMismatch nm eph.referenceFrameOrientation gor) := by
              simp [processBodyFrame, hl, hbe, h1, h3, h2]
            rw [hstep] at hok
            exact Option.noConfusion hok

theorem processBodyFrame_missing (S T : NumRep) (go gor : String) {m : NamedBodyMap}
    {nm : String} {b : Body} {eph : Ephemeris}
    (hl : mapLookup m nm = some b) (hbe : b.ephemeris = some eph)
    (h1 : eph.referenceFrameOrigin ≠ go)
    (h3 : eph.referenceFrameOrigin ∉ mapKeys m) :
    processBodyFrame S T go gor m nm =
      (m, some (.missingFrameOrigin nm eph.referenceFrameOrigin go)) := by
  have h3' : (mapLookup m eph.referenceFrameOrigin).isNone :=
    (mapLookup_isNone_iff m eph.referenceFrameOrigin).mpr h3
  simp [processBodyFrame, hl, hbe, h1, h3']

theorem processBodyFrame_orient_eph (S T : NumRep) (go gor : String) {m : NamedBodyMap}
    {nm : String} {b : Body} {eph : Ephemeris}
    (hl : mapLookup m nm = some b) (hbe : b.ephemeris = some eph)
    (h1 : eph.referenceFrameOrigin = go ∨ eph.referenceFrameOrigin ∈ mapKeys m)
    (h2 : eph.referenceFrameOrientation ≠ gor) :
    (processBodyFrame S T go gor m nm).2 =
      some (.frameOrientationMismatch nm eph.referenceFrameOrientation gor) := by
  rcases h1 with h1 | h1
  · simp [processBodyFrame, hl, hbe, h1, h2]
  · by_cases h0 : eph.referenceFrameOrigin = go
    · simp [processBodyFrame, hl, hbe, h0, h2]
    · have h3 : ¬(mapLookup m eph.referenceFrameOrigin).isNone = true := by
        intro hn
        exact (mapLookup_isNone_iff m eph.referenceFrameOrigin).mp hn h1
      simp [processBodyFrame, hl, hbe, h0, h3, h2]

theorem processBodyFrame_orient_rot (S T : NumRep) (go gor : String) {m : NamedBodyMap}
    {nm : String} {b : Body} {rot : RotationalEphemeris}
    (hl : mapLookup m nm = some b)
    (hbe : b.ephemeris = none ∨ ∃ eph, b.ephemeris = some eph ∧
      (eph.referenceFrameOrigin = go ∨ eph.referenceFrameOrigin ∈ mapKeys m) ∧
      eph.referenceFrameOrientation = gor)
    (hr : b.rotationalEphemeris = some rot)
    (h2 : rot.baseFrameOrientation ≠ gor) :
    (processBodyFrame S T go gor m nm).2 =
      some (.frameOrientationMismatch nm rot.baseFrameOrientation gor) := by
  rcases hbe with hbe | ⟨eph, hbe, horig, horient⟩
  · have hstep : processBodyFrame S T go gor m nm = checkRotation m nm b gor := by
      simp [processBodyFrame, hl, hbe]
    rw [hstep, checkRotation_mismatch m nm gor hr h2]
  · rcases horig with h1 | h1
    · have hstep : processBodyFrame S T go gor m nm = checkRotation m nm b gor := by
        simp [processBodyFrame, hl, hbe, h1, horient]
      rw [hstep, checkRotation_mismatch m nm gor hr h2]
    · by_cases h0 : eph.referenceFrameOrigin = go
      · have hstep : processBodyFrame S T go gor m nm = checkRotation m nm b gor := by
          simp [processBodyFrame, hl, hbe, h0, horient]
        rw [hstep, checkRotation_mismatch m nm gor hr h2]
      · have h3 : ¬(mapLookup m eph.referenceFrameOrigin).isNone = true := by
          intro hn
          exact (mapLookup_isNone_iff m eph.referenceFrameOrigin).mp hn h1
        have hstep : processBodyFrame S T go gor m nm =
            checkRotation (mapUpdate m nm { b with
              ephemerisFrameToBaseFrame :=
                some (mkAdapter S T eph.referenceFrameOrigin) }) nm b gor := by
          simp [processBodyFrame, hl, hbe, h0, h3, horient]
        rw [hstep, checkRotation_mismatch _ nm gor hr h2]

theorem bodyOkay_congr {keys : List String} {go gor : String} {a b : Body}
    (he : a.ephemeris = b.ephemeris)
    (hr : a.rotationalEphemeris = b.rotationalEphemeris) :
    bodyOkay keys go gor a ↔ bodyOkay keys go gor b := by
  unfold bodyOkay
  rw [he, hr]

theorem adapterEvolved_okay {S T : NumRep} {go : String} {m m' : NamedBodyMap}
    (h : adapterEvolved S T go m m') (gor : String) (x : String) :
    (∀ b, mapLookup m' x = some b → bodyOkay (mapKeys m') go gor b) ↔
      (∀ b, mapLookup m x = some b → bodyOkay (mapKeys m) go gor b) := by
  constructor
  · intro h' b hb
    have hxk : x ∈ mapKeys m' := by
      rw [h.1]
      exact mem_keys_of_mem (mapLookup_mem hb)
    obtain ⟨b', hb'⟩ := mapLookup_isSome_of_mem_keys hxk
    obtain ⟨b0, hb0, hrel⟩ := h.2 x b' hb'
    rw [hb] at hb0
    injection hb0 with hb0
    subst hb0
    have hok' := h' b' hb'
    rw [h.1] at hok'
    rcases hrel with rfl | rfl
    · exact hok'
    · exact (bodyOkay_congr (transformBody_ephemeris S T go b)
        (transformBody_rotational S T go b)).mp hok'
  · intro h' b' hb'
    obtain ⟨b0, hb0, hrel⟩ := h.2 x b' hb'
    have hok := h' b0 hb0
    rw [h.1]
    rcases hrel with rfl | rfl
    · exact hok
    · exact (bodyOkay_congr (transformBody_ephemeris S T go b0)
        (transformBody_rotational S T go b0)).mpr hok

theorem setGlobalFrameLoop_evolved (S T : NumRep) (go gor : String) :
    ∀ (names : List String) (m : NamedBodyMap),
      adapterEvolved S T go m (setGlobalFrameLoop S T go gor m names).1 := by
  intro names
  induction names with
  | nil => intro m; exact adapterEvolved_refl S T go m
  | cons nm rest ih =>
    intro m
    cases hstep : processBodyFrame S T go gor m nm with
    | mk m' eopt =>
      have hev : adapterEvolved S T go m m' := by
        have h1 := processBodyFrame_evolved S T go gor m nm
        rw [hstep] at h1
        exact h1
      cases eopt with
      | none =>
        have hloop : setGlobalFrameLoop S T go gor m (nm :: rest) =
            setGlobalFrameLoop S T go gor m' rest := by
          simp [setGlobalFrameLoop, hstep]
        rw [hloop]
        exact adapterEvolved_trans hev (ih m')
      | some e =>
        have hloop : setGlobalFrameLoop S T go gor m (nm :: rest) = (m', some e) := by
          simp [setGlobalFrameLoop, hstep]
        rw [hloop]
        exact hev

theorem setGlobalFrameLoop_none_iff (S T : NumRep) (go gor : String) :
    ∀ (names : List String) (m : NamedBodyMap),
      (setGlobalFrameLoop S T go gor m names).2 = none ↔
        ∀ nm ∈ names, ∀ b, mapLookup m nm = some b →
          bodyOkay (mapKeys m) go gor b := by
  intro names
  induction names with
  | nil => intro m; simp [setGlobalFrameLoop]
  | cons nm rest ih =>
    intro m
    cases hstep : processBodyFrame S T go gor m nm with
    | mk m' eopt =>
      cases eopt with
      | none =>
        have hloop : setGlobalFrameLoop S T go gor m (nm :: rest) =
            setGlobalFrameLoop S T go gor m' rest := by
          simp [setGlobalFrameLoop, hstep]
        rw [hloop]
        have hev : adapterEvolved S T go m m' := by
          have h1 := processBodyFrame_evolved S T go gor m nm
          rw [hstep] at h1
          exact h1
        have hnm : ∀ b, mapLookup m nm = some b → bodyOkay (mapKeys m) go gor b :=
          (processBodyFrame_none_iff S T go gor m nm).mp (by rw [hstep])
        constructor
        · intro hrest nm' hmem' b hb
          rcases List.mem_cons.mp hmem' with rfl | hmem'
          · exact hnm b hb
          · exact (adapterEvolved_okay hev gor nm').mp
              (fun b' hb' => (ih m').mp hrest nm' hmem' b' hb') b hb
        · intro hall
          rw [ih m']
          intro nm' hmem' b' hb'
          exact (adapterEvolved_okay hev gor nm').mpr
            (fun b hb => hall nm' (List.mem_cons_of_mem _ hmem') b hb) b' hb'
      | some e =>
        have hloop : setGlobalFrameLoop S T go gor m (nm :: rest) = (m', some e) := by
          simp [setGlobalFrameLoop, hstep]
        rw [hloop]
        constructor
        · intro h
          simp at h
        · intro hall
          have h1 := (processBodyFrame_none_iff S T go gor m nm).mpr
            fun b hb => hall nm (List.mem_cons_self _ _) b hb
          rw [hstep] at h1
          simp at h1

theorem setGlobalFrameLoop_ok_lookup (S T : NumRep) (go gor : String) :
    ∀ (names : List String) (m : NamedBodyMap), names.Nodup →
      (setGlobalFrameLoop S T go gor m names).2 = none →
      ∀ x, mapLookup (setGlobalFrameLoop S T go gor m names).1 x =
        if x ∈ names then (mapLookup m x).map (transformBody S T go)
        else mapLookup m x := by
  intro names
  induction names with
  | nil => intro m _ _ x; simp [setGlobalFrameLoop]
  | cons nm rest ih =>
    intro m hnd hok x
    cases hstep : processBodyFrame S T go gor m nm with
    | mk m' eopt =>
      cases eopt with
      | some e =>
        exfalso
        have hloop : setGlobalFrameLoop S T go gor m (nm :: rest) = (m', some e) := by
          simp [setGlobalFrameLoop, hstep]
        rw [hloop] at hok
        simp at hok
      | none =>
        have hloop : setGlobalFrameLoop S T go gor m (nm :: rest) =
            setGlobalFrameLoop S T go gor m' rest := by
          simp [setGlobalFrameLoop, hstep]
        rw [hloop] at hok ⊢
        have hstepl' : ∀ x', mapLookup m' x' =
            if x' = nm then (mapLookup m x').map (transformBody S T go)
            else mapLookup m x' := by
          intro x'
          have hsl := processBodyFrame_ok_lookup S T go gor m nm (by rw [hstep]) x'
          rw [hstep] at hsl
          exact hsl
        rcases List.nodup_cons.mp hnd with ⟨hnm, hrest⟩
        rw [ih m' hrest hok x]
        by_cases hx : x ∈ rest
        · rw [if_pos hx, if_pos (List.mem_cons_of_mem _ hx)]
          have hxnm : x ≠ nm := fun he => hnm (he ▸ hx)
          rw [hstepl' x, if_neg hxnm]
        · rw [if_neg hx]
          by_cases hx2 : x = nm
          · subst hx2
            rw [if_pos (List.mem_cons_self _ _), hstepl' x, if_pos rfl]
          · have hnmem : x ∉ nm :: rest := by
              intro hmem
              rcases List.mem_cons.mp hmem with h | h
              · exact hx2 h
              · exact hx h
            rw [hstepl' x, if_neg hx2, if_neg hnmem]

theorem setGlobalFrameLoop_append (S T : NumRep) (go gor : String) :
    ∀ (l1 : List String) (m : NamedBodyMap) (rest : List String),
      (∀ x ∈ l1, ∀ b, mapLookup m x = some b → bodyOkay (mapKeys m) go gor b) →
      ∃ m1, setGlobalFrameLoop S T go gor m (l1 ++ rest) =
          setGlobalFrameLoop S T go gor m1 rest ∧ adapterEvolved S T go m m1 := by
  intro l1
  induction l1 with
  | nil =>
    intro m rest _
    exact ⟨m, rfl, adapterEvolved_refl S T go m⟩
  | cons a l1' ih =>
    intro m rest hpass
    cases hstep : processBodyFrame S T go gor m a with
    | mk m' eopt =>
      have hA : (processBodyFrame S T go gor m a).2 = none :=
        (processBodyFrame_none_iff S T go gor m a).mpr
          fun b hb => hpass a (List.mem_cons_self _ _) b hb
      rw [hstep] at hA
      cases eopt with
      | some e => simp at hA
      | none =>
        have hloop : setGlobalFrameLoop S T go gor m ((a :: l1') ++ rest) =
            setGlobalFrameLoop S T go gor m' (l1' ++ rest) := by
          simp [setGlobalFrameLoop, hstep]
        have hev : adapterEvolved S T go m m' := by
          have h1 := processBodyFrame_evolved S T go gor m a
          rw [hstep] at h1
          exact h1
        have hpass' : ∀ x ∈ l1', ∀ b, mapLookup m' x = some b →
            bodyOkay (mapKeys m') go gor b := by
          intro x hx
          exact (adapterEvolved_okay hev gor x).mpr
            fun b hb => hpass x (List.mem_cons_of_mem _ hx) b hb
        obtain ⟨m1, hm1, hev1⟩ := ih m' rest hpass'
        exact ⟨m1, hloop.trans hm1, adapterEvolved_trans hev hev1⟩

theorem setGlobalFrameLoop_skip (S T : NumRep) (go gor : String) :
    ∀ (l1 : List String) (m : NamedBodyMap) (nm : String) (l2 : List String),
      (∀ b, mapLookup m nm = some b →
        b.ephemeris = none ∧ b.rotationalEphemeris = none) →
      setGlobalFrameLoop S T go gor m (l1 ++ nm :: l2) =
        setGlobalFrameLoop S T go gor m (l1 ++ l2) := by
  intro l1
  induction l1 with
  | nil =>
    intro m nm l2 hb
    have hstep : processBodyFrame S T go gor m nm = (m, none) := by
      cases hl : mapLookup m nm with
      | none => exact processBodyFrame_not_found hl
      | some b =>
        obtain ⟨he, hr⟩ := hb b hl
        have h1 : processBodyFrame S T go gor m nm = checkRotation m nm b gor := by
          simp [processBodyFrame, hl, he]
        rw [h1]
        simp [checkRotation, hr]
    simp [setGlobalFrameLoop, hstep]
  | cons a l1' ih =>
    intro m nm l2 hb
    cases hstep : processBodyFrame S T go gor m a with
    | mk m' eopt =>
      cases eopt with
      | some e => simp [setGlobalFrameLoop, hstep]
      | none =>
        have hloop1 : setGlobalFrameLoop S T go gor m ((a :: l1') ++ nm :: l2) =
            setGlobalFrameLoop S T go gor m' (l1' ++ nm :: l2) := by
          simp [setGlobalFrameLoop, hstep]
        have hloop2 : setGlobalFrameLoop S T go gor m ((a :: l1') ++ l2) =
            setGlobalFrameLoop S T go gor m' (l1' ++ l2) := by
          simp [setGlobalFrameLoop, hstep]
        rw [hloop1, hloop2]
        apply ih
        intro b' hb'
        have hev : adapterEvolved S T go m m' := by
          have h1 := processBodyFrame_evolved S T go gor m a
          rw [hstep] at h1
          exact h1
        obtain ⟨b0, hb0, hrel⟩ := hev.2 nm b' hb'
        obtain ⟨he0, hr0⟩ := hb b0 hb0
        rcases hrel with rfl | rfl
        · exact ⟨he0, hr0⟩
        · exact ⟨(transformBody_ephemeris S T go b0).trans he0,
            (transformBody_rotational S T go b0).trans hr0⟩

theorem getState_ext {m1 m2 : NamedBodyMap}
    (h : ∀ x, mapLookup m1 x = mapLookup m2 x) :
    ∀ (fuel : Nat) (nm : String) (t : ℤ),
      getStateInBaseFrameFromEphemeris m1 fuel nm t =
        getStateInBaseFrameFromEphemeris m2 fuel nm t := by
  intro fuel
  induction fuel with
  | zero => intro nm t; rfl
  | succ fuel ih =>
    intro nm t
    simp only [getStateInBaseFrameFromEphemeris, h nm]
    cases h2 : mapLookup m2 nm with
    | none => rfl
    | some b =>
      cases hifc : b.ephemerisFrameToBaseFrame with
      | none => simp [hifc]
      | some iface => simp [hifc, ih]

/-! ## Concrete bodies for witnesses and counterexamples -/

def ephEarthW : Ephemeris where
  getCartesianState := fun t => fun i => t + (i : ℤ)
  referenceFrameOrigin := "SSB"
  referenceFrameOrientation := "ECLIPJ2000"

def ephMoonW : Ephemeris where
  getCartesianState := fun t => fun _ => 2 * t
  referenceFrameOrigin := "Earth"
  referenceFrameOrientation := "ECLIPJ2000"

def bodyEarthW : Body where
  ephemeris := some ephEarthW

def bodyMoonW : Body where
  ephemeris := some ephMoonW

/-- Two-body map in which Earth is expressed at the global origin and Moon's
ephemeris is expressed relative to Earth; fully frame-consistent for global
origin SSB and orientation ECLIPJ2000. -/
def consistentBodyMap : NamedBodyMap := [("Earth", bodyEarthW), ("Moon", bodyMoonW)]

/-! ## Claims about the Frame Consistency Enforcer -/

/-- C1: setGlobalFrameBodyEphemerides succeeds exactly when, for every body in
the mapping, any ephemeris declares a frame origin equal to the global origin
or present as a key of the mapping together with an orientation equal to the
global orientation, and any rotational ephemeris declares the global
orientation as its base frame; moreover, when the first failing check is a
frame origin that differs from the global origin and is absent from the
mapping, the call fails with missingFrameOrigin naming the dependent body and
the missing origin. -/
theorem claim_C1 (S T : NumRep) (m : NamedBodyMap) (go gor : String)
    (hnd : (mapKeys m).Nodup) :
    ((setGlobalFrameBodyEphemerides S T m go gor).2 = none ↔
      ∀ p ∈ m,
        (∀ e, p.2.ephemeris = some e →
          (e.referenceFrameOrigin = go ∨ e.referenceFrameOrigin ∈ mapKeys m) ∧
            e.referenceFrameOrientation = gor) ∧
        (∀ r, p.2.rotationalEphemeris = some r →
          r.baseFrameOrientation = gor)) ∧
    (∀ l1 nm l2 b e, mapKeys m = l1 ++ nm :: l2 →
      (∀ x ∈ l1, ∀ bx, mapLookup m x = some bx → bodyOkay (mapKeys m) go gor bx) →
      mapLookup m nm = some b → b.ephemeris = some e →
      e.referenceFrameOrigin ≠ go → e.referenceFrameOrigin ∉ mapKeys m →
      (setGlobalFrameBodyEphemerides S T m go gor).2 =
        some (.missingFrameOrigin nm e.referenceFrameOrigin go)) := by
  constructor
  · rw [show setGlobalFrameBodyEphemerides S T m go gor =
      setGlobalFrameLoop S T go gor m (mapKeys m) from rfl]
    rw [setGlobalFrameLoop_none_iff]
    constructor
    · intro hall p hp
      have hp' : (p.1, p.2) ∈ m := by simpa using hp
      exact hall p.1 (mem_keys_of_mem hp') p.2 (mapLookup_of_mem hnd hp')
    · intro hall nm _ b hb
      exact hall (nm, b) (mapLookup_mem hb)
  · intro l1 nm l2 b e hsplit hpass hb hbe h1 h3
    have hkeys : setGlobalFrameBodyEphemerides S T m go gor =
        setGlobalFrameLoop S T go gor m (l1 ++ nm :: l2) := by
      rw [show setGlobalFrameBodyEphemerides S T m go gor =
        setGlobalFrameLoop S T go gor m (mapKeys m) from rfl, hsplit]
    obtain ⟨m1, hm1, hev⟩ := setGlobalFrameLoop_append S T go gor l1 m (nm :: l2) hpass
    rw [hkeys, hm1]
    have hxk : nm ∈ mapKeys m1 := by
      rw [hev.1]
      exact mem_keys_of_mem (mapLookup_mem hb)
    obtain ⟨b1, hb1⟩ := mapLookup_isSome_of_mem_keys hxk
    obtain ⟨b0, hb0, hrel⟩ := hev.2 nm b1 hb1
    rw [hb] at hb0
    injection hb0 with hb0
    subst hb0
    have hbe1 : b1.ephemeris = some e := by
      rcases hrel with rfl | rfl
      · exact hbe
      · rw [transformBody_ephemeris]
        exact hbe
    have hstep := processBodyFrame_missing S T go gor hb1 hbe1 h1
      (by rw [hev.1]; exact h3)
    simp [setGlobalFrameLoop, hstep]

/-- Witness: claim_C1 on the concrete consistent Earth/Moon mapping yields
success of the enforcer pass. -/
theorem claim_C1_witness :
    (setGlobalFrameBodyEphemerides .double .double consistentBodyMap
      "SSB" "ECLIPJ2000").2 = none := by
  apply (claim_C1 .double .double consistentBodyMap "SSB" "ECLIPJ2000"
    (by decide)).1.mpr
  intro p hp
  rcases List.mem_cons.mp hp with rfl | hp
  · refine ⟨?_, ?_⟩
    · intro e he
      have h2 : some ephEarthW = some e := he
      injection h2 with h2
      rw [← h2]
      exact ⟨Or.inl rfl, rfl⟩
    · intro r hr
      exact Option.noConfusion (show (none : Option RotationalEphemeris) = some r from hr)
  · rcases List.mem_cons.mp hp with rfl | hp
    · refine ⟨?_, ?_⟩
      · intro e he
        have h2 : some ephMoonW = some e := he
        injection h2 with h2
        rw [← h2]
        exact ⟨Or.inr (by decide), rfl⟩
      · intro r hr
        exact Option.noConfusion (show (none : Option RotationalEphemeris) = some r from hr)
    · simp at hp

/-- C2: for a body whose ephemeris origin differs from the global origin but
is a key of the mapping, a successful enforcer pass attaches to it a
translation adapter bound to the origin body, and invoking that adapter at
any time evaluates the origin body's own state (through its ephemeris and
any adapter attached to it) on the resulting map. -/
theorem claim_C2 (S T : NumRep) (m : NamedBodyMap) (go gor : String)
    (nm : String) (b : Body) (e : Ephemeris)
    (hnd : (mapKeys m).Nodup) (hmem : (nm, b) ∈ m) (he : b.ephemeris = some e)
    (hne : e.referenceFrameOrigin ≠ go) (hin : e.referenceFrameOrigin ∈ mapKeys m)
    (hok : (setGlobalFrameBodyEphemerides S T m go gor).2 = none) :
    mapLookup (setGlobalFrameBodyEphemerides S T m go gor).1 nm =
      some { b with
        ephemerisFrameToBaseFrame := some (mkAdapter S T e.referenceFrameOrigin) } ∧
    ∀ fuel t,
      invokeBaseStateInterface (setGlobalFrameBodyEphemerides S T m go gor).1
          (mkAdapter S T e.referenceFrameOrigin) fuel t =
        getStateInBaseFrameFromEphemeris
          (setGlobalFrameBodyEphemerides S T m go gor).1 fuel
          e.referenceFrameOrigin t := by
  constructor
  · rw [show setGlobalFrameBodyEphemerides S T m go gor =
      setGlobalFrameLoop S T go gor m (mapKeys m) from rfl]
    rw [setGlobalFrameLoop_ok_lookup S T go gor (mapKeys m) m hnd hok nm,
      if_pos (mem_keys_of_mem hmem), mapLookup_of_mem hnd hmem]
    simp [transformBody_attach he hne]
  · intro fuel t
    rfl

/-- Witness: claim_C2 on the concrete Earth/Moon mapping; the Moon receives an
adapter bound to Earth whose invocation is Earth's own base-frame state. -/
theorem claim_C2_witness :
    mapLookup (setGlobalFrameBodyEphemerides .double .double consistentBodyMap
        "SSB" "ECLIPJ2000").1 "Moon" =
      some { bodyMoonW with
        ephemerisFrameToBaseFrame := some (mkAdapter .double .double "Earth") } ∧
    ∀ fuel t,
      invokeBaseStateInterface (setGlobalFrameBodyEphemerides .double .double
          consistentBodyMap "SSB" "ECLIPJ2000").1
          (mkAdapter .double .double "Earth") fuel t =
        getStateInBaseFrameFromEphemeris (setGlobalFrameBodyEphemerides .double .double
          consistentBodyMap "SSB" "ECLIPJ2000").1 fuel "Earth" t :=
  claim_C2 .double .double consistentBodyMap "SSB" "ECLIPJ2000" "Moon" bodyMoonW
    ephMoonW (by decide) (List.mem_cons_of_mem _ (List.mem_cons_self _ _)) rfl
    (by decide) (by decide) (by decide)

theorem transformBody_changed {S T : NumRep} {go : String} {b : Body}
    (h : transformBody S T go b ≠ b) :
    ∃ e, b.ephemeris = some e ∧ e.referenceFrameOrigin ≠ go := by
  by_cases hbe : b.ephemeris = none
  · exact absurd (transformBody_self (Or.inl hbe)) h
  · obtain ⟨e, he⟩ := Option.ne_none_iff_exists'.mp hbe
    by_cases h1 : e.referenceFrameOrigin = go
    · exact absurd (transformBody_self (Or.inr ⟨e, he, h1⟩)) h
    · exact ⟨e, he, h1⟩

/-- C3: a body with a mismatching ephemeris orientation, or a mismatching
rotational base-frame orientation, always makes the call fail; when it is the
first failing check, the failure is frameOrientationMismatch naming the body
and both orientation strings; and attaching a translation adapter only ever
happens because of an origin difference, never because of an orientation
mismatch. -/
theorem claim_C3 (S T : NumRep) (m : NamedBodyMap) (go gor : String)
    (hnd : (mapKeys m).Nodup) :
    (∀ nm b e, (nm, b) ∈ m → b.ephemeris = some e →
      e.referenceFrameOrientation ≠ gor →
      (setGlobalFrameBodyEphemerides S T m go gor).2 ≠ none) ∧
    (∀ nm b r, (nm, b) ∈ m → b.rotationalEphemeris = some r →
      r.baseFrameOrientation ≠ gor →
      (setGlobalFrameBodyEphemerides S T m go gor).2 ≠ none) ∧
    (∀ l1 nm l2 b e, mapKeys m = l1 ++ nm :: l2 →
      (∀ x ∈ l1, ∀ bx, mapLookup m x = some bx → bodyOkay (mapKeys m) go gor bx) →
      mapLookup m nm = some b → b.ephemeris = some e →
      (e.referenceFrameOrigin = go ∨ e.referenceFrameOrigin ∈ mapKeys m) →
      e.referenceFrameOrientation ≠ gor →
      (setGlobalFrameBodyEphemerides S T m go gor).2 =
        some (.frameOrientationMismatch nm e.referenceFrameOrientation gor)) ∧
    (∀ l1 nm l2 b r, mapKeys m = l1 ++ nm :: l2 →
      (∀ x ∈ l1, ∀ bx, mapLookup m x = some bx → bodyOkay (mapKeys m) go gor bx) →
      mapLookup m nm = some b →
      (b.ephemeris = none ∨ ∃ e, b.ephemeris = some e ∧
        (e.referenceFrameOrigin = go ∨ e.referenceFrameOrigin ∈ mapKeys m) ∧
        e.referenceFrameOrientation = gor) →
      b.rotationalEphemeris = some r → r.baseFrameOrientation ≠ gor →
      (setGlobalFrameBodyEphemerides S T m go gor).2 =
        some (.frameOrientationMismatch nm r.baseFrameOrientation gor)) ∧
    (∀ nm b b', mapLookup m nm = some b →
      mapLookup (setGlobalFrameBodyEphemerides S T m go gor).1 nm = some b' →
      b'.ephemerisFrameToBaseFrame ≠ b.ephemerisFrameToBaseFrame →
      ∃ e, b.ephemeris = some e ∧ e.referenceFrameOrigin ≠ go) := by
  refine ⟨?_, ?_, ?_, ?_, ?_⟩
  · intro nm b e hmem he hne hok
    have hall := (setGlobalFrameLoop_none_iff S T go gor (mapKeys m) m).mp hok
    have hok1 := hall nm (mem_keys_of_mem hmem) b (mapLookup_of_mem hnd hmem)
    exact hne (hok1.1 e he).2
  · intro nm b r hmem hr hne hok
    have hall := (setGlobalFrameLoop_none_iff S T go gor (mapKeys m) m).mp hok
    have hok1 := hall nm (mem_keys_of_mem hmem) b (mapLookup_of_mem hnd hmem)
    exact hne (hok1.2 r hr)
  · intro l1 nm l2 b e hsplit hpass hb hbe h1 h2
    obtain ⟨m1, hm1, hev⟩ := setGlobalFrameLoop_append S T go gor l1 m (nm :: l2) hpass
    rw [show setGlobalFrameBodyEphemerides S T m go gor =
      setGlobalFrameLoop S T go gor m (mapKeys m) from rfl, hsplit, hm1]
    have hxk : nm ∈ mapKeys m1 := by
      rw [hev.1]
      exact mem_keys_of_mem (mapLookup_mem hb)
    obtain ⟨b1, hb1⟩ := mapLookup_isSome_of_mem_keys hxk
    obtain ⟨b0, hb0, hrel⟩ := hev.2 nm b1 hb1
    rw [hb] at hb0
    injection hb0 with hb0
    subst hb0
    have hbe1 : b1.ephemeris = some e := by
      rcases hrel with rfl | rfl
      · exact hbe
      · rw [transformBody_ephemeris]
        exact hbe
    have h1' : e.referenceFrameOrigin = go ∨ e.referenceFrameOrigin ∈ mapKeys m1 := by
      rcases h1 with h1 | h1
      · exact Or.inl h1
      · exact Or.inr (by rw [hev.1]; exact h1)
    have hstep := processBodyFrame_orient_eph S T go gor hb1 hbe1 h1' h2
    cases hstepfull : processBodyFrame S T go gor m1 nm with
    | mk m2 eo =>
      rw [hstepfull] at hstep
      have heo : eo = some (.frameOrientationMismatch nm
        e.referenceFrameOrientation gor) := hstep
      subst heo
      simp [setGlobalFrameLoop, hstepfull]
  · intro l1 nm l2 b r hsplit hpass hb hdisj hr h2
    obtain ⟨m1, hm1, hev⟩ := setGlobalFrameLoop_append S T go gor l1 m (nm :: l2) hpass
    rw [show setGlobalFrameBodyEphemerides S T m go gor =
      setGlobalFrameLoop S T go gor m (mapKeys m) from rfl, hsplit, hm1]
    have hxk : nm ∈ mapKeys m1 := by
      rw [hev.1]
      exact mem_keys_of_mem (mapLookup_mem hb)
    obtain ⟨b1, hb1⟩ := mapLookup_isSome_of_mem_keys hxk
    obtain ⟨b0, hb0, hrel⟩ := hev.2 nm b1 hb1
    rw [hb] at hb0
    injection hb0 with hb0
    subst hb0
    have hbeq : b1.ephemeris = b.ephemeris := by
      rcases hrel with rfl | rfl
      · rfl
      · exact transformBody_ephemeris S T go b
    have hr1 : b1.rotationalEphemeris = some r := by
      rcases hrel with rfl | rfl
      · exact hr
      · rw [transformBody_rotational]
        exact hr
    have hdisj1 : b1.ephemeris = none ∨ ∃ e, b1.ephemeris = some e ∧
        (e.referenceFrameOrigin = go ∨ e.referenceFrameOrigin ∈ mapKeys m1) ∧
        e.referenceFrameOrientation = gor := by
      rcases hdisj with hnone | ⟨e, he, horig, horient⟩
      · exact Or.inl (hbeq.trans hnone)
      · refine Or.inr ⟨e, hbeq.trans he, ?_, horient⟩
        rcases horig with h | h
        · exact Or.inl h
        · exact Or.inr (by rw [hev.1]; exact h)
    have hstep := processBodyFrame_orient_rot S T go gor hb1 hdisj1 hr1 h2
    cases hstepfull : processBodyFrame S T go gor m1 nm with
    | mk m2 eo =>
      rw [hstepfull] at hstep
      have heo : eo = some (.frameOrientationMismatch nm
        r.baseFrameOrientation gor) := hstep
      subst heo
      simp [setGlobalFrameLoop, hstepfull]
  · intro nm b b' hb hb' hne
    have hev := setGlobalFrameLoop_evolved S T go gor (mapKeys m) m
    obtain ⟨b0, hb0, hrel⟩ := hev.2 nm b' hb'
    rw [hb] at hb0
    injection hb0 with hb0
    subst hb0
    rcases hrel with rfl | rfl
    · exact absurd rfl hne
    · exact transformBody_changed
        fun heq => hne (congrArg Body.ephemerisFrameToBaseFrame heq)

def ephBadOrient : Ephemeris where
  getCartesianState := fun _ => 0
  referenceFrameOrigin := "SSB"
  referenceFrameOrientation := "J2000"

def bodyBadOrient : Body where
  ephemeris := some ephBadOrient

def badOrientMap : NamedBodyMap := [("Sat", bodyBadOrient)]

/-- Witness: claim_C3 on a body declaring orientation J2000 while the global
orientation is ECLIPJ2000; the enforcer pass fails. -/
theorem claim_C3_witness :
    (setGlobalFrameBodyEphemerides .double .double badOrientMap
      "SSB" "ECLIPJ2000").2 ≠ none :=
  (claim_C3 .double .double badOrientMap "SSB" "ECLIPJ2000" (by decide)).1
    "Sat" bodyBadOrient ephBadOrient (List.mem_cons_self _ _) rfl (by decide)

/-- C9: a body whose ephemeris already declares the global origin and the
global orientation is left completely unchanged by the enforcer pass
(no adapter attached, no-op case). -/
theorem claim_C9 (S T : NumRep) (m : NamedBodyMap) (go gor : String)
    (nm : String) (b : Body) (e : Ephemeris)
    (hnd : (mapKeys m).Nodup) (hmem : (nm, b) ∈ m)
    (he : b.ephemeris = some e) (ho : e.referenceFrameOrigin = go)
    (hor : e.referenceFrameOrientation = gor) :
    mapLookup (setGlobalFrameBodyEphemerides S T m go gor).1 nm = some b := by
  rw [show setGlobalFrameBodyEphemerides S T m go gor =
    setGlobalFrameLoop S T go gor m (mapKeys m) from rfl]
  have hev := setGlobalFrameLoop_evolved S T go gor (mapKeys m) m
  have hxk : nm ∈ mapKeys (setGlobalFrameLoop S T go gor m (mapKeys m)).1 := by
    rw [hev.1]
    exact mem_keys_of_mem hmem
  obtain ⟨b', hb'⟩ := mapLookup_isSome_of_mem_keys hxk
  obtain ⟨b0, hb0, hrel⟩ := hev.2 nm b' hb'
  rw [mapLookup_of_mem hnd hmem] at hb0
  injection hb0 with hb0
  subst hb0
  rw [hb']
  rcases hrel with rfl | rfl
  · rfl
  · rw [transformBody_self (Or.inr ⟨e, he, ho⟩)]

/-- Witness: claim_C9 on the concrete Earth body expressed at the global
origin and orientation; the enforcer leaves it untouched. -/
theorem claim_C9_witness :
    mapLookup (setGlobalFrameBodyEphemerides .double .double consistentBodyMap
      "SSB" "ECLIPJ2000").1 "Earth" = some bodyEarthW :=
  claim_C9 .double .double consistentBodyMap "SSB" "ECLIPJ2000" "Earth" bodyEarthW
    ephEarthW (by decide) (List.mem_cons_self _ _) rfl rfl rfl

/-! Concrete two-body map on which the enforcer attaches an adapter to the
first body and only afterwards fails on the second body's orientation. -/

def ephApollo : Ephemeris where
  getCartesianState := fun _ => 0
  referenceFrameOrigin := "Zulu"
  referenceFrameOrientation := "ECLIPJ2000"

def bodyApollo : Body where
  ephemeris := some ephApollo

def ephZulu : Ephemeris where
  getCartesianState := fun _ => 0
  referenceFrameOrigin := "SSB"
  referenceFrameOrientation := "WRONG"

def bodyZulu : Body where
  ephemeris := some ephZulu

def partialMutationMap : NamedBodyMap := [("Apollo", bodyApollo), ("Zulu", bodyZulu)]

/-- Counterexample to C6 as stated: on this mapping the call fails (Zulu's
orientation mismatches), yet Apollo — processed earlier — has already had a
translation adapter attached, so a mutation is visible when the failure is
reported. -/
theorem claim_C6_counterexample :
    (setGlobalFrameBodyEphemerides .double .double partialMutationMap
      "SSB" "ECLIPJ2000").2 ≠ none ∧
    (mapLookup (setGlobalFrameBodyEphemerides .double .double partialMutationMap
        "SSB" "ECLIPJ2000").1 "Apollo").bind Body.ephemerisFrameToBaseFrame =
      some (mkAdapter .double .double "Zulu") ∧
    (mapLookup partialMutationMap "Apollo").bind Body.ephemerisFrameToBaseFrame =
      none := by
  decide

/-- C6 (amended): when setGlobalFrameBodyEphemerides fails, the mutations are
not rolled back: each body of the mapping is found in the returned map either
unchanged or with exactly its translation adapter attached (per its own
ephemeris origin declaration); nothing else about any body has changed. -/
theorem claim_C6_amended (S T : NumRep) (m : NamedBodyMap) (go gor : String)
    (hfail : (setGlobalFrameBodyEphemerides S T m go gor).2 ≠ none) :
    ∀ nm b, mapLookup m nm = some b →
      mapLookup (setGlobalFrameBodyEphemerides S T m go gor).1 nm = some b ∨
      mapLookup (setGlobalFrameBodyEphemerides S T m go gor).1 nm =
        some (transformBody S T go b) := by
  intro nm b hb
  have hev := setGlobalFrameLoop_evolved S T go gor (mapKeys m) m
  have hxk : nm ∈ mapKeys (setGlobalFrameLoop S T go gor m (mapKeys m)).1 := by
    rw [hev.1]
    exact mem_keys_of_mem (mapLookup_mem hb)
  obtain ⟨b', hb'⟩ := mapLookup_isSome_of_mem_keys hxk
  obtain ⟨b0, hb0, hrel⟩ := hev.2 nm b' hb'
  rw [hb] at hb0
  injection hb0 with hb0
  subst hb0
  rcases hrel with rfl | rfl
  · exact Or.inl hb'
  · exact Or.inr hb'

/-- Witness: claim_C6_amended on the concrete partially-mutated mapping. -/
theorem claim_C6_amended_witness :
    mapLookup (setGlobalFrameBodyEphemerides .double .double partialMutationMap
        "SSB" "ECLIPJ2000").1 "Apollo" = some bodyApollo ∨
    mapLookup (setGlobalFrameBodyEphemerides .double .double partialMutationMap
        "SSB" "ECLIPJ2000").1 "Apollo" =
      some (transformBody .double .double "SSB" bodyApollo) :=
  claim_C6_amended .double .double partialMutationMap "SSB" "ECLIPJ2000"
    (by decide) "Apollo" bodyApollo rfl

/-- C7: evaluated at the instantiation StateScalarType = long double,
TimeType = Time, the attached adapter binds the origin body's state query at
those numeric parameters, but the wrapper BaseStateInterfaceImplementation is
constructed at double, double (createBodies.h line 134) — it is not
parameterized by the instantiation, contradicting the claim. -/
theorem claim_C7_bug :
    (mapLookup (setGlobalFrameBodyEphemerides .longDouble .timeRep consistentBodyMap
        "SSB" "ECLIPJ2000").1 "Moon").bind Body.ephemerisFrameToBaseFrame =
      some (BaseStateInterface.mk "Earth" "Earth" NumRep.longDouble NumRep.timeRep
        NumRep.double NumRep.double) ∧
    NumRep.double ≠ NumRep.longDouble ∧ NumRep.double ≠ NumRep.timeRep := by
  decide

/-- C8: the adapter values observable after the pass are independent of the
processing order: for any permutation of the key order, the pass also
succeeds and every state query at any time and frame-chain depth returns the
same 6-vector as after the pass in map (key) order. -/
theorem claim_C8 (S T : NumRep) (m : NamedBodyMap) (go gor : String)
    (names : List String) (hnd : (mapKeys m).Nodup)
    (hperm : names.Perm (mapKeys m))
    (hok : (setGlobalFrameBodyEphemerides S T m go gor).2 = none) :
    (setGlobalFrameLoop S T go gor m names).2 = none ∧
    ∀ fuel nm t,
      getStateInBaseFrameFromEphemeris (setGlobalFrameLoop S T go gor m names).1
          fuel nm t =
        getStateInBaseFrameFromEphemeris
          (setGlobalFrameBodyEphemerides S T m go gor).1 fuel nm t := by
  have hok2 : (setGlobalFrameLoop S T go gor m names).2 = none := by
    rw [setGlobalFrameLoop_none_iff]
    intro nm hmem
    exact (setGlobalFrameLoop_none_iff S T go gor (mapKeys m) m).mp hok nm
      (hperm.mem_iff.mp hmem)
  refine ⟨hok2, ?_⟩
  have hndnames : names.Nodup := hperm.nodup_iff.mpr hnd
  have hpt : ∀ x, mapLookup (setGlobalFrameLoop S T go gor m names).1 x =
      mapLookup (setGlobalFrameLoop S T go gor m (mapKeys m)).1 x := by
    intro x
    rw [setGlobalFrameLoop_ok_lookup S T go gor names m hndnames hok2 x,
      setGlobalFrameLoop_ok_lookup S T go gor (mapKeys m) m hnd hok x]
    by_cases hx : x ∈ names
    · rw [if_pos hx, if_pos (hperm.mem_iff.mp hx)]
    · rw [if_neg hx, if_neg fun hmem => hx (hperm.mem_iff.mpr hmem)]
  intro fuel nm t
  exact getState_ext hpt fuel nm t

/-- Witness: claim_C8 on the concrete Earth/Moon mapping processed in the
reversed order. -/
theorem claim_C8_witness :
    getStateInBaseFrameFromEphemeris
        (setGlobalFrameLoop .double .double "SSB" "ECLIPJ2000" consistentBodyMap
          ["Moon", "Earth"]).1 3 "Moon" 5 =
      getStateInBaseFrameFromEphemeris
        (setGlobalFrameBodyEphemerides .double .double consistentBodyMap
          "SSB" "ECLIPJ2000").1 3 "Moon" 5 :=
  (claim_C8 .double .double consistentBodyMap "SSB" "ECLIPJ2000" ["Moon", "Earth"]
    (by decide) (by decide) (by decide)).2 3 "Moon" 5

/-- C10: a body with neither an ephemeris nor a rotational ephemeris is
never checked and never mutated: whatever the global origin and orientation,
removing it from the iteration does not change the call's outcome, and the
body is found unchanged in the returned map. -/
theorem claim_C10 (S T : NumRep) (m : NamedBodyMap) (go gor : String)
    (nm : String) (b : Body) (l1 l2 : List String)
    (hnd : (mapKeys m).Nodup) (hmem : (nm, b) ∈ m)
    (heph : b.ephemeris = none) (hrot : b.rotationalEphemeris = none)
    (hsplit : mapKeys m = l1 ++ nm :: l2) :
    setGlobalFrameBodyEphemerides S T m go gor =
      setGlobalFrameLoop S T go gor m (l1 ++ l2) ∧
    mapLookup (setGlobalFrameBodyEphemerides S T m go gor).1 nm = some b := by
  have hlook : mapLookup m nm = some b := mapLookup_of_mem hnd hmem
  have hcond : ∀ b0, mapLookup m nm = some b0 →
      b0.ephemeris = none ∧ b0.rotationalEphemeris = none := by
    intro b0 hb0
    rw [hlook] at hb0
    injection hb0 with hb0
    subst hb0
    exact ⟨heph, hrot⟩
  constructor
  · rw [show setGlobalFrameBodyEphemerides S T m go gor =
      setGlobalFrameLoop S T go gor m (mapKeys m) from rfl, hsplit]
    exact setGlobalFrameLoop_skip S T go gor l1 m nm l2 hcond
  · rw [show setGlobalFrameBodyEphemerides S T m go gor =
      setGlobalFrameLoop S T go gor m (mapKeys m) from rfl]
    have hev := setGlobalFrameLoop_evolved S T go gor (mapKeys m) m
    have hxk : nm ∈ mapKeys (setGlobalFrameLoop S T go gor m (mapKeys m)).1 := by
      rw [hev.1]
      exact mem_keys_of_mem hmem
    obtain ⟨b', hb'⟩ := mapLookup_isSome_of_mem_keys hxk
    obtain ⟨b0, hb0, hrel⟩ := hev.2 nm b' hb'
    rw [hlook] at hb0
    injection hb0 with hb0
    subst hb0
    rw [hb']
    rcases hrel with rfl | rfl
    · rfl
    · rw [transformBody_self (Or.inl heph)]

def bodyInert : Body := {}

def ephStar : Ephemeris where
  getCartesianState := fun _ => 0
  referenceFrameOrigin := "BARY"
  referenceFrameOrientation := "FRAMEX"

def bodyStar : Body where
  ephemeris := some ephStar

def inertBodyMap : NamedBodyMap := [("Probe", bodyInert), ("Star", bodyStar)]

/-- Witness: claim_C10 on a mapping containing a model-free Probe body, with
arbitrary global frame strings under which the other body even fails its
checks; the Probe is skipped and left unchanged. -/
theorem claim_C10_witness :
    setGlobalFrameBodyEphemerides .double .double inertBodyMap "GO" "GR" =
      setGlobalFrameLoop .double .double "GO" "GR" inertBodyMap ([] ++ ["Star"]) ∧
    mapLookup (setGlobalFrameBodyEphemerides .double .double inertBodyMap
      "GO" "GR").1 "Probe" = some bodyInert :=
  claim_C10 .double .double inertBodyMap "GO" "GR" "Probe" bodyInert [] ["Star"]
    (by decide) (List.mem_cons_self _ _) rfl rfl rfl
